import Mathlib

/-!
# Verification of the covid19japan summarization core

Shallow embedding of the data-summarization core (`src/verify.js` and the
summarize module) together with proofs about its behaviour.

Modelling conventions:
* Calendar days are modeled by their ordinal day number (`Nat := Nat`).
  `YYYY-MM-DD` strings are in an order-preserving bijection with day
  numbers, so lodash's sort of date-string keys coincides with sorting by
  day number, and formatting/comparing a day equals comparing the numbers.
* JavaScript objects used as string-keyed accumulators are modeled as
  association lists in key-insertion order (the keys in play — date strings
  and prefecture names — are not array-index-like, so JS preserves
  insertion order for them).
* lodash `sortBy` is a stable sort; it is modeled by `List.insertionSort`,
  which is also stable, and any two stable sorts agree pointwise.
* JS numbers that the code treats as integers are `Int` (or `Nat` for pure
  counters that are only ever incremented); thrown strings become a
  `ValidationError` variant carrying the interpolated data.
-/

namespace Covid

/-- One case record (a row of the patient-data sheet).  Field names follow
the source (`patientId`, `dateAnnounced`, ...).  `dateAnnounced := none`
models a missing/falsy announced date; the cruise flags are the 0/1
integers the sheet carries. -/
structure Patient where
  patientId : Int := -1
  dateAnnounced : Option Nat := none
  confirmedPatient : Bool := false
  patientStatus : String := ""
  detectedPrefecture : String := ""
  detectedCityTown : Option String := none
  cruisePassengerDisembarked : Int := 0
  cruiseQuarantineOfficer : Int := 0
  deriving Repr, DecidableEq

/-- One entry of the daily summary.  In JS the properties are added to the
object as the pipeline proceeds; here all fields exist from the start with
value 0, matching the explicit `{confirmed: 0, ...Cumulative: 0}`
initializer and the later assignments. -/
structure DailySummaryEntry where
  confirmed : Nat := 0
  recoveredCumulative : Int := 0
  deceasedCumulative : Int := 0
  criticalCumulative : Int := 0
  testedCumulative : Int := 0
  date : Nat := 0
  confirmedCumulative : Nat := 0
  confirmedAvg3d : Nat := 0
  confirmedCumulativeAvg3d : Nat := 0
  confirmedAvg7d : Nat := 0
  confirmedCumulativeAvg7d : Nat := 0
  deriving Repr, DecidableEq

/-- The error taxonomy of the validator (`throw` of a template string in
the source; the payload of the string is carried structurally). -/
inductive ValidationError where
  | insufficientHistory
  | staleCumulative (key : String)
  | duplicateCaseId (ids : List Int)
  deriving Repr, DecidableEq

/-- `_.keys(latestDay)` — the own-property names of a finished daily
summary entry, in JS insertion order (the five initializer fields, then
`date`, then the fields assigned by the cumulative/average passes). -/
def entryJsKeys (_e : DailySummaryEntry) : List String :=
  ["confirmed", "recoveredCumulative", "deceasedCumulative",
   "criticalCumulative", "testedCumulative", "date", "confirmedCumulative",
   "confirmedAvg3d", "confirmedCumulativeAvg3d", "confirmedAvg7d",
   "confirmedCumulativeAvg7d"]

/-- JS property read `latestDay[key]` for the numeric fields; a name that
is not a property of the object reads `undefined` (`none`).  `date` is a
string in JS, and `string < 1` is a NaN comparison, i.e. false — the same
behaviour `none` produces under `jsLtOne`. -/
def getNumericField (e : DailySummaryEntry) (key : String) : Option Int :=
  if key = "confirmed" then some e.confirmed
  else if key = "recoveredCumulative" then some e.recoveredCumulative
  else if key = "deceasedCumulative" then some e.deceasedCumulative
  else if key = "criticalCumulative" then some e.criticalCumulative
  else if key = "testedCumulative" then some e.testedCumulative
  else if key = "confirmedCumulative" then some e.confirmedCumulative
  else if key = "confirmedAvg3d" then some e.confirmedAvg3d
  else if key = "confirmedCumulativeAvg3d" then some e.confirmedCumulativeAvg3d
  else if key = "confirmedAvg7d" then some e.confirmedAvg7d
  else if key = "confirmedCumulativeAvg7d" then some e.confirmedCumulativeAvg7d
  else none

/-- JS `v < 1` where `v` may be `undefined` (comparison with `undefined`
is a NaN comparison and yields false). -/
def jsLtOne : Option Int → Bool
  | none => false
  | some n => decide (n < 1)

/-- `String.prototype.endsWith`. -/
def jsEndsWith (s suffix : String) : Bool :=
  List.isSuffixOf suffix.data s.data

/-- JS `for (let key in arr)` over an ARRAY enumerates the array's own
enumerable property names, i.e. the element indices as strings
"0", "1", ... — not the elements.  (The source writes `for...in` where it
evidently means `for...of`.) -/
def jsForInKeys (arr : List String) : List String :=
  (List.range arr.length).map Nat.repr

/-- `verifyDailySummary` from `src/verify.js`, lines 8–25: rejects a series
of fewer than 10 entries, then runs the (dead, see `jsForInKeys`) stale-
cumulative scan over `for (let key in _.keys(latestDay))`, and otherwise
returns its input unchanged. -/
def verifyDailySummary (dailySummary : List DailySummaryEntry) :
    Except ValidationError (List DailySummaryEntry) :=
  if dailySummary.length < 10 then
    .error .insufficientHistory
  else
    let latestDay := dailySummary.getLastD {}
    match (jsForInKeys (entryJsKeys latestDay)).find?
        (fun key => jsEndsWith key "Cumulative" &&
          jsLtOne (getNumericField latestDay key)) with
    | some key => .error (.staleCumulative key)
    | none => .ok dailySummary

/-- One iteration of the `verifyPatients` loop: state is the pair
(ids seen so far, duplicates pushed so far). -/
def verifyPatientsStep (acc : List Int × List Int) (patient : Patient) :
    List Int × List Int :=
  if patient.patientId == -1 then acc
  else
    let dups := if acc.1.contains patient.patientId
      then acc.2 ++ [patient.patientId] else acc.2
    (patient.patientId :: acc.1, dups)

/-- The `duplicates` list accumulated by `verifyPatients`. -/
def duplicatePatientIds (patients : List Patient) : List Int :=
  (patients.foldl verifyPatientsStep ([], [])).2

/-- `verifyPatients` from `src/verify.js`, lines 27–48. -/
def verifyPatients (patients : List Patient) :
    Except ValidationError (List Patient) :=
  let duplicates := duplicatePatientIds patients
  if duplicates.length > 0 then
    .error (.duplicateCaseId duplicates)
  else
    .ok patients

/-! ## Facts about the validator -/

/-- The stale-cumulative scan is dead code: `for...in` over the key array
yields index strings, none of which ends in "Cumulative", so a series of
length at least 10 always passes. -/
theorem verifyDailySummary_ok_of_long (ds : List DailySummaryEntry)
    (h : ¬ ds.length < 10) : verifyDailySummary ds = .ok ds := by
  unfold verifyDailySummary
  rw [if_neg h]
  rfl

/-- Membership invariant for the `verifyPatients` loop, generalized over
the accumulator state: an id ends up reported iff it already was, or it is
not the sentinel and (counting a prior sighting recorded in `seen`) it is
sighted at least twice in total. -/
theorem verifyPatients_foldl_mem (l : List Patient)
    (seen dups : List Int) (x : Int) :
    x ∈ (l.foldl verifyPatientsStep (seen, dups)).2 ↔
      x ∈ dups ∨ (x ≠ -1 ∧
        2 ≤ (if x ∈ seen then 1 else 0) +
          (l.filter (fun p => p.patientId == x)).length) := by
  induction l generalizing seen dups with
  | nil =>
    simp only [List.foldl_nil, List.filter_nil, List.length_nil, Nat.add_zero]
    constructor
    · exact fun h => Or.inl h
    · rintro (h | ⟨-, h⟩)
      · exact h
      · split at h <;> omega
  | cons p rest ih =>
    rw [List.foldl_cons]
    by_cases hA : p.patientId = -1
    · have hstep : verifyPatientsStep (seen, dups) p = (seen, dups) := by
        simp [verifyPatientsStep, hA]
      rw [hstep, ih]
      by_cases hx : x = -1
      · simp [hx]
      · have hpx : (p.patientId == x) = false := by
          simp [hA]; intro hc; exact hx hc.symm
        simp [List.filter_cons, hpx]
    · by_cases hB : p.patientId = x
      · have hpx : (p.patientId == x) = true := by simp [hB]
        have hxne : x ≠ -1 := fun hc => hA (hB.trans hc)
        by_cases hC : p.patientId ∈ seen
        · have hstep : verifyPatientsStep (seen, dups) p =
              (p.patientId :: seen, dups ++ [p.patientId]) := by
            simp [verifyPatientsStep, hA]
            exact hC
          rw [hstep, ih]
          have hxseen : x ∈ seen := hB ▸ hC
          simp only [List.filter_cons, hpx, if_pos, List.length_cons,
            if_pos hxseen, if_pos (List.mem_cons.mpr (Or.inr hxseen)),
            List.mem_append, List.mem_singleton]
          constructor
          · intro _
            exact Or.inr ⟨hxne, by omega⟩
          · intro _
            exact Or.inl (Or.inr hB.symm)
        · have hcont : seen.contains p.patientId = false := by
            rw [Bool.eq_false_iff]
            intro hc
            exact hC (List.elem_iff.mp hc)
          have hstep : verifyPatientsStep (seen, dups) p =
              (p.patientId :: seen, dups) := by
            simp [verifyPatientsStep, hA]
            exact hC
          rw [hstep, ih]
          have hxseen : x ∉ seen := fun hc => hC (hB ▸ hc)
          have hxcons : x ∈ p.patientId :: seen := by
            exact List.mem_cons.mpr (Or.inl hB.symm)
          simp only [List.filter_cons, hpx, if_pos, List.length_cons,
            if_pos hxcons, if_neg hxseen]
          constructor
          · rintro (h | ⟨-, h⟩)
            · exact Or.inl h
            · exact Or.inr ⟨hxne, by omega⟩
          · rintro (h | ⟨-, h⟩)
            · exact Or.inl h
            · exact Or.inr ⟨hxne, by omega⟩
      · have hpx : (p.patientId == x) = false := by
          simp [hB]
        have hfilter :
            ((p :: rest).filter (fun q => q.patientId == x)).length =
              (rest.filter (fun q => q.patientId == x)).length := by
          simp [List.filter_cons, hpx]
        by_cases hC : p.patientId ∈ seen
        · have hstep : verifyPatientsStep (seen, dups) p =
              (p.patientId :: seen, dups ++ [p.patientId]) := by
            simp [verifyPatientsStep, hA]
            exact hC
          rw [hstep, ih, hfilter]
          have hmem : x ∈ p.patientId :: seen ↔ x ∈ seen := by
            rw [List.mem_cons]
            constructor
            · rintro (h | h)
              · exact absurd h.symm hB
              · exact h
            · exact Or.inr
          have hdup : x ∈ dups ++ [p.patientId] ↔ x ∈ dups := by
            rw [List.mem_append, List.mem_singleton]
            constructor
            · rintro (h | h)
              · exact h
              · exact absurd h.symm hB
            · exact Or.inl
          rw [hdup]
          by_cases hxs : x ∈ seen
          · rw [if_pos (hmem.mpr hxs), if_pos hxs]
          · rw [if_neg (fun hc => hxs (hmem.mp hc)), if_neg hxs]
        · have hcont : seen.contains p.patientId = false := by
            rw [Bool.eq_false_iff]
            intro hc
            exact hC (List.elem_iff.mp hc)
          have hstep : verifyPatientsStep (seen, dups) p =
              (p.patientId :: seen, dups) := by
            simp [verifyPatientsStep, hA]
            exact hC
          rw [hstep, ih, hfilter]
          have hmem : x ∈ p.patientId :: seen ↔ x ∈ seen := by
            rw [List.mem_cons]
            constructor
            · rintro (h | h)
              · exact absurd h.symm hB
              · exact h
            · exact Or.inr
          by_cases hxs : x ∈ seen
          · rw [if_pos (hmem.mpr hxs), if_pos hxs]
          · rw [if_neg (fun hc => hxs (hmem.mp hc)), if_neg hxs]

/-- Characterization of the duplicates list: an id is reported iff it is
not the sentinel `-1` and occurs at least twice. -/
theorem mem_duplicatePatientIds (patients : List Patient) (x : Int) :
    x ∈ duplicatePatientIds patients ↔
      x ≠ -1 ∧ 2 ≤ (patients.filter (fun p => p.patientId == x)).length := by
  unfold duplicatePatientIds
  rw [verifyPatients_foldl_mem]
  simp

/-- A 10-entry daily series whose latest entry has `testedCumulative = 0`
(all other cumulative counters positive). -/
def staleSeries : List DailySummaryEntry :=
  (List.range 9).map (fun i =>
    { date := i, confirmed := 1, confirmedCumulative := i + 1,
      recoveredCumulative := 1, deceasedCumulative := 1,
      criticalCumulative := 1, testedCumulative := 1 }) ++
  [{ date := 9, confirmed := 1, confirmedCumulative := 10,
     recoveredCumulative := 5, deceasedCumulative := 2,
     criticalCumulative := 1, testedCumulative := 0 }]

/-- Claim C1 (code bug): the spec says a series of at least 10 entries
whose most recent entry holds a `*Cumulative` value below 1 is rejected
with `StaleCumulative`, and the source's own comment says "Ensure none of
the fields are zero" — but the scan iterates `for...in` over the key
ARRAY, visiting index strings "0".."10" instead of the key names, so no
name ever ends in "Cumulative" and the check never fires.  On a 10-entry
series whose latest `testedCumulative` is 0, `verifyDailySummary`
succeeds and returns the input unchanged instead of failing. -/
theorem claim_C1_staleCumulative_never_fires :
    staleSeries.length = 10 ∧
    (staleSeries.getLastD {}).testedCumulative < 1 ∧
    verifyDailySummary staleSeries = .ok staleSeries :=
  ⟨by decide, by decide, by rfl⟩

/-- A 9-entry daily series (structurally identical to `tenSeries` minus
its last entry). -/
def nineSeries : List DailySummaryEntry :=
  (List.range 9).map (fun i =>
    { date := i, confirmed := 1, confirmedCumulative := i + 1,
      recoveredCumulative := 1, deceasedCumulative := 1,
      criticalCumulative := 1, testedCumulative := 1 })

/-- A 10-entry daily series whose latest entry has every `*Cumulative`
field at least 1. -/
def tenSeries : List DailySummaryEntry :=
  (List.range 10).map (fun i =>
    { date := i, confirmed := 1, confirmedCumulative := i + 1,
      recoveredCumulative := 1, deceasedCumulative := 1,
      criticalCumulative := 1, testedCumulative := 1 })

/-- Claim C6: `verifyDailySummary` fails with `InsufficientHistory`
exactly when the series has fewer than 10 entries; in particular it fails
on every 9-entry series, and succeeds — returning the input unchanged —
on a 10-entry series whose latest entry has all `*Cumulative` fields at
least 1. -/
theorem claim_C6_insufficientHistory (ds : List DailySummaryEntry) :
    (verifyDailySummary ds = .error .insufficientHistory ↔ ds.length < 10) ∧
    (ds.length = 9 → verifyDailySummary ds = .error .insufficientHistory) ∧
    (ds.length = 10 →
      (∀ e ∈ ds.getLast?, 1 ≤ e.recoveredCumulative ∧
        1 ≤ e.deceasedCumulative ∧ 1 ≤ e.criticalCumulative ∧
        1 ≤ e.testedCumulative ∧ 1 ≤ e.confirmedCumulative) →
      verifyDailySummary ds = .ok ds) := by
  refine ⟨?_, ?_, ?_⟩
  · constructor
    · intro h
      by_contra hlen
      rw [verifyDailySummary_ok_of_long ds hlen] at h
      exact Except.noConfusion h
    · intro h
      unfold verifyDailySummary
      rw [if_pos h]
  · intro h9
    unfold verifyDailySummary
    rw [if_pos (by omega)]
  · intro h10 _
    exact verifyDailySummary_ok_of_long ds (by omega)

/-- Witness for C6: the 9-entry series is rejected for insufficient
history and the 10-entry series passes through unchanged. -/
theorem claim_C6_witness :
    verifyDailySummary nineSeries = .error .insufficientHistory ∧
    verifyDailySummary tenSeries = .ok tenSeries :=
  ⟨(claim_C6_insufficientHistory nineSeries).2.1 (by decide),
   (claim_C6_insufficientHistory tenSeries).2.2 (by decide) (by decide)⟩

/-- Claim C5: `verifyPatients` reports (in `DuplicateCaseId`) exactly the
non-sentinel ids occurring more than once; a collection whose ids are all
the sentinel `-1` always passes; and passing means the input collection is
returned unchanged, while any reported duplicate means failure carrying
the duplicates list. -/
theorem claim_C5_duplicateCaseId (patients : List Patient) :
    (∀ x : Int, x ∈ duplicatePatientIds patients ↔
        x ≠ -1 ∧ 2 ≤ (patients.filter (fun p => p.patientId == x)).length) ∧
    ((∀ p ∈ patients, p.patientId = -1) →
      verifyPatients patients = .ok patients) ∧
    (duplicatePatientIds patients = [] →
      verifyPatients patients = .ok patients) ∧
    (duplicatePatientIds patients ≠ [] →
      verifyPatients patients =
        .error (.duplicateCaseId (duplicatePatientIds patients))) := by
  have hok : duplicatePatientIds patients = [] →
      verifyPatients patients = .ok patients := by
    intro hnil
    unfold verifyPatients
    rw [hnil]
    rfl
  refine ⟨fun x => mem_duplicatePatientIds patients x, ?_, hok, ?_⟩
  · intro hall
    apply hok
    by_contra hne
    obtain ⟨x, hx⟩ := List.exists_mem_of_ne_nil _ hne
    obtain ⟨hxne, hcnt⟩ := (mem_duplicatePatientIds patients x).mp hx
    have : ∃ p ∈ patients, p.patientId == x := by
      have hlen : 0 < (patients.filter (fun p => p.patientId == x)).length := by
        omega
      obtain ⟨p, hp⟩ := List.exists_mem_of_ne_nil _
        (List.length_pos.mp hlen)
      exact ⟨p, (List.mem_filter.mp hp).1, (List.mem_filter.mp hp).2⟩
    obtain ⟨p, hpmem, hpid⟩ := this
    have : p.patientId = x := by simpa using hpid
    exact hxne (this ▸ hall p hpmem)
  · intro hne
    unfold verifyPatients
    rw [if_pos ?_]
    have : 0 < (duplicatePatientIds patients).length :=
      List.length_pos.mpr hne
    omega

/-- Concrete record set with id 42 twice plus sentinel records. -/
def dupPatients : List Patient :=
  [{ patientId := 42 }, { patientId := -1 }, { patientId := 42 },
   { patientId := -1 }, { patientId := -1 }]

/-- Concrete record set consisting solely of sentinel `-1` ids. -/
def sentinelPatients : List Patient :=
  [{ patientId := -1 }, { patientId := -1 }, { patientId := -1 },
   { patientId := -1 }]

/-- Witness for C5: two records with id 42 cause 42 to be reported, and a
collection of only `-1` ids passes. -/
theorem claim_C5_witness :
    (42 : Int) ∈ duplicatePatientIds dupPatients ∧
    verifyPatients sentinelPatients = .ok sentinelPatients :=
  ⟨((claim_C5_duplicateCaseId dupPatients).1 42).mpr (by decide),
   (claim_C5_duplicateCaseId sentinelPatients).2.1 (by decide)⟩

/-! ## The summarize module: safeParseInt and generateDailySummary -/

/-- A value coming from a spreadsheet cell: a string, an integer, or a
non-integer decimal number (kept as integer part plus fraction digits, the
shape JS stringifies it to). -/
inductive JSValue where
  | vstr (s : String)
  | vint (n : Int)
  | vdec (ip : Int) (fp : String)
  deriving Repr, DecidableEq

/-- JS ToString of a cell value — what `parseInt(v)` actually parses. -/
def jsToString : JSValue → String
  | .vstr s => s
  | .vint n => n.repr
  | .vdec ip fp => ip.repr ++ "." ++ fp

/-- Whitespace as stripped by `parseInt`. -/
def isWs (c : Char) : Bool :=
  c = ' ' || c = '\t' || c = '\n' || c = '\r'

/-- Strip leading whitespace. -/
def skipWs : List Char → List Char
  | [] => []
  | c :: rest => if isWs c then skipWs rest else c :: rest

/-- Hexadecimal digit predicate. -/
def isHexDigitChar (c : Char) : Bool :=
  c.isDigit || ('a' ≤ c && c ≤ 'f') || ('A' ≤ c && c ≤ 'F')

/-- Value of a (hex or decimal) digit. -/
def digitValue (c : Char) : Nat :=
  if c.isDigit then c.toNat - '0'.toNat
  else if 'a' ≤ c && c ≤ 'f' then c.toNat - 'a'.toNat + 10
  else if 'A' ≤ c && c ≤ 'F' then c.toNat - 'A'.toNat + 10
  else 0

/-- Horner evaluation of a digit list. -/
def digitsValue (base : Nat) (ds : List Char) : Nat :=
  ds.foldl (fun a c => a * base + digitValue c) 0

/-- The digit scan of `parseInt` after sign handling: an explicit `0x`/`0X`
prefix switches to base 16, otherwise the longest leading run of decimal
digits is read; no digits at all gives NaN (`none`). -/
def jsParseIntDigits (l : List Char) : Option Nat :=
  match l with
  | c1 :: c2 :: rest =>
    if c1 = '0' ∧ (c2 = 'x' ∨ c2 = 'X') then
      let ds := rest.takeWhile isHexDigitChar
      if ds.isEmpty then none else some (digitsValue 16 ds)
    else
      let ds := (c1 :: c2 :: rest).takeWhile Char.isDigit
      if ds.isEmpty then none else some (digitsValue 10 ds)
  | _ =>
    let ds := l.takeWhile Char.isDigit
    if ds.isEmpty then none else some (digitsValue 10 ds)

/-- JS `parseInt` (radix argument omitted): strip whitespace, read an
optional sign, then scan digits; `none` models `NaN` (an empty remainder
scans no digits, hence NaN). -/
def jsParseInt (s : String) : Option Int :=
  match skipWs s.data with
  | [] => none
  | c :: rest =>
    if c = '-' then (jsParseIntDigits rest).map (fun n => -(n : Int))
    else if c = '+' then (jsParseIntDigits rest).map (fun n => (n : Int))
    else (jsParseIntDigits (c :: rest)).map (fun n => (n : Int))

/-- `safeParseInt` (summarize module, lines 29–35): `parseInt`, reverting
to 0 if the result is NaN. -/
def safeParseInt (v : JSValue) : Int :=
  match jsParseInt (jsToString v) with
  | none => 0
  | some n => n

/-- One row of the Sum By Nat spreadsheet. -/
structure ManualDailyRow where
  date : Nat := 0
  recovered : JSValue := .vstr ""
  deceased : JSValue := .vstr ""
  critical : JSValue := .vstr ""
  tested : JSValue := .vstr ""
  deriving Repr, DecidableEq

/-- In-place update of the value stored under a key of a string-keyed JS
object, modeled on an association list (keys are unique by
construction). -/
def modifyAssoc {α β : Type} [BEq α] (l : List (α × β)) (k : α) (f : β → β) :
    List (α × β) :=
  l.map (fun kv => if kv.1 == k then (kv.1, f kv.2) else kv)

/-- One iteration of the grouping loop of `generateDailySummary`
(lines 40–58): skip records without an announced date, create the date's
zero-initialized entry on first sight (JS objects keep insertion order for
these keys, hence the append), and count confirmed patients. -/
def dailyGroupStep (acc : List (Nat × DailySummaryEntry)) (patient : Patient) :
    List (Nat × DailySummaryEntry) :=
  match patient.dateAnnounced with
  | none => acc
  | some d =>
    let acc := if (acc.lookup d).isNone then acc ++ [(d, {})] else acc
    if patient.confirmedPatient then
      modifyAssoc acc d (fun e => { e with confirmed := e.confirmed + 1 })
    else acc

/-- The grouping loop over all records. -/
def dailyGroups (patients : List Patient) : List (Nat × DailySummaryEntry) :=
  patients.foldl dailyGroupStep []

/-- One iteration of the manual-data merge loop (lines 63–70): a manual
row whose date already has an entry overwrites that entry's four
cumulative counters with defensively parsed values; other rows are
dropped. -/
def mergeManualStep (acc : List (Nat × DailySummaryEntry))
    (row : ManualDailyRow) : List (Nat × DailySummaryEntry) :=
  if (acc.lookup row.date).isSome then
    modifyAssoc acc row.date (fun e =>
      { e with recoveredCumulative := safeParseInt row.recovered,
               deceasedCumulative := safeParseInt row.deceased,
               criticalCumulative := safeParseInt row.critical,
               testedCumulative := safeParseInt row.tested })
  else acc

/-- The manual-data merge loop over all rows. -/
def mergeManualDaily (acc : List (Nat × DailySummaryEntry))
    (rows : List ManualDailyRow) : List (Nat × DailySummaryEntry) :=
  rows.foldl mergeManualStep acc

/-- Lines 72–73: `_.sortBy(_.toPairs(...), a => a[0])`, then attach the
key onto the entry as `date`.  Sorting the `YYYY-MM-DD` keys
lexicographically equals sorting day numbers; lodash's stable sort is
modeled by the (also stable) insertion sort. -/
def orderedDailySummary (acc : List (Nat × DailySummaryEntry)) :
    List DailySummaryEntry :=
  (List.insertionSort (fun a b : Nat × DailySummaryEntry => a.1 ≤ b.1) acc).map
    (fun kv => { kv.2 with date := kv.1 })

/-- Lines 76–80: running sum of `confirmed` into `confirmedCumulative`,
with accumulator `c`. -/
def addConfirmedCumulative (c : Nat) :
    List DailySummaryEntry → List DailySummaryEntry
  | [] => []
  | e :: rest =>
    { e with confirmedCumulative := c + e.confirmed } ::
      addConfirmedCumulative (c + e.confirmed) rest

/-- Lines 82–103: the rolling-average pass.  `buf3`/`buf7` are the
three/seven day buffers, `c3`/`c7` the running sums of the averages.  Each
step pushes the day's `confirmed`, clips the buffer to its window size
(`slice(length - W)` = `drop (length - W)`), and records
`Math.floor(sum / W)` (floor division on naturals). -/
def addAverages (buf3 buf7 : List Nat) (c3 c7 : Nat) :
    List DailySummaryEntry → List DailySummaryEntry
  | [] => []
  | e :: rest =>
    let b3 := buf3 ++ [e.confirmed]
    let b3 := if 3 < b3.length then b3.drop (b3.length - 3) else b3
    let b7 := buf7 ++ [e.confirmed]
    let b7 := if 7 < b7.length then b7.drop (b7.length - 7) else b7
    let a3 := b3.sum / 3
    let a7 := b7.sum / 7
    { e with confirmedAvg3d := a3, confirmedCumulativeAvg3d := c3 + a3,
             confirmedAvg7d := a7, confirmedCumulativeAvg7d := c7 + a7 } ::
      addAverages b3 b7 (c3 + a3) (c7 + a7) rest

/-- Lines 109–120 for a single day: each of the four cumulative counters
is replaced by the previous (already forward-filled) day's value exactly
when it is 0, independently of the other three. -/
def fillFromPrevious (prev e : DailySummaryEntry) : DailySummaryEntry :=
  { e with
    recoveredCumulative := if e.recoveredCumulative == 0
      then prev.recoveredCumulative else e.recoveredCumulative,
    deceasedCumulative := if e.deceasedCumulative == 0
      then prev.deceasedCumulative else e.deceasedCumulative,
    criticalCumulative := if e.criticalCumulative == 0
      then prev.criticalCumulative else e.criticalCumulative,
    testedCumulative := if e.testedCumulative == 0
      then prev.testedCumulative else e.testedCumulative }

/-- Tail of the forward-fill walk, carrying the previous (filled) day. -/
def forwardFillFrom (prev : DailySummaryEntry) :
    List DailySummaryEntry → List DailySummaryEntry
  | [] => []
  | e :: rest =>
    fillFromPrevious prev e :: forwardFillFrom (fillFromPrevious prev e) rest

/-- Lines 105–121: the forward-fill pass starts at the second entry
(`i = 1`); the first entry is untouched. -/
def forwardFill : List DailySummaryEntry → List DailySummaryEntry
  | [] => []
  | e :: rest => e :: forwardFillFrom e rest

/-- The daily series right before the forward-fill pass. -/
def preForwardFill (patients : List Patient)
    (manualDailyData : List ManualDailyRow) : List DailySummaryEntry :=
  addAverages [] [] 0 0
    (addConfirmedCumulative 0
      (orderedDailySummary
        (mergeManualDaily (dailyGroups patients) manualDailyData)))

/-- `generateDailySummary` (lines 38–125): group, merge manual rows, sort,
accumulate, average, forward-fill, validate. -/
def generateDailySummary (patients : List Patient)
    (manualDailyData : List ManualDailyRow) :
    Except ValidationError (List DailySummaryEntry) :=
  verifyDailySummary (forwardFill (preForwardFill patients manualDailyData))

/-! ## Structural lemmas about the pipeline -/

theorem lookup_none_iff {α β : Type} [BEq α] [LawfulBEq α]
    (l : List (α × β)) (k : α) :
    l.lookup k = none ↔ k ∉ l.map Prod.fst := by
  induction l with
  | nil => simp [List.lookup]
  | cons kv rest ih =>
    rw [List.map_cons, List.lookup]
    by_cases h : k = kv.1
    · subst h
      simp
    · have hbeq : (k == kv.1) = false := by simpa using h
      rw [hbeq]
      simp only [List.mem_cons, ih]
      constructor
      · intro hr hc
        rcases hc with hc | hc
        · exact h hc
        · exact hr hc
      · intro hr
        exact fun hc => hr (Or.inr hc)

theorem modifyAssoc_keys {α β : Type} [BEq α]
    (l : List (α × β)) (k : α) (f : β → β) :
    (modifyAssoc l k f).map Prod.fst = l.map Prod.fst := by
  unfold modifyAssoc
  rw [List.map_map]
  apply List.map_congr_left
  intro kv _
  by_cases h : (kv.1 == k) = true
  · simp [h]
  · simp [Bool.eq_false_iff.mpr h]

theorem dailyGroupStep_keys_nodup (acc : List (Nat × DailySummaryEntry))
    (p : Patient) (h : (acc.map Prod.fst).Nodup) :
    ((dailyGroupStep acc p).map Prod.fst).Nodup := by
  rcases hda : p.dateAnnounced with - | d
  · unfold dailyGroupStep
    rw [hda]
    exact h
  · unfold dailyGroupStep
    rw [hda]
    dsimp only
    have key : ∀ acc2 : List (Nat × DailySummaryEntry),
        (acc2.map Prod.fst).Nodup →
        ((modifyAssoc acc2 d
          (fun e => { e with confirmed := e.confirmed + 1 })).map Prod.fst).Nodup := by
      intro acc2 h2
      rw [modifyAssoc_keys]
      exact h2
    have happ : ((if (acc.lookup d).isNone
        then acc ++ [((d, {}) : Nat × DailySummaryEntry)] else acc).map
          Prod.fst).Nodup := by
      by_cases hl : (acc.lookup d).isNone
      · rw [if_pos hl, List.map_append]
        have hd : d ∉ acc.map Prod.fst := by
          rw [← lookup_none_iff]
          exact Option.isNone_iff_eq_none.mp hl
        simp only [List.map_cons, List.map_nil]
        rw [List.nodup_append]
        refine ⟨h, List.nodup_singleton d, ?_⟩
        intro a ha had
        rw [List.mem_singleton] at had
        subst had
        exact hd ha
      · rw [if_neg hl]
        exact h
    by_cases hc : p.confirmedPatient
    · rw [if_pos hc]
      exact key _ happ
    · rw [if_neg hc]
      exact happ

theorem dailyGroups_keys_nodup (patients : List Patient) :
    ((dailyGroups patients).map Prod.fst).Nodup := by
  unfold dailyGroups
  have main : ∀ (l : List Patient) (acc : List (Nat × DailySummaryEntry)),
      (acc.map Prod.fst).Nodup → ((l.foldl dailyGroupStep acc).map Prod.fst).Nodup := by
    intro l
    induction l with
    | nil => exact fun acc h => h
    | cons p rest ih =>
      intro acc h
      rw [List.foldl_cons]
      exact ih _ (dailyGroupStep_keys_nodup acc p h)
  exact main patients [] (by simp)

theorem mergeManualStep_keys (acc : List (Nat × DailySummaryEntry))
    (row : ManualDailyRow) :
    (mergeManualStep acc row).map Prod.fst = acc.map Prod.fst := by
  unfold mergeManualStep
  by_cases h : (acc.lookup row.date).isSome
  · rw [if_pos h, modifyAssoc_keys]
  · rw [if_neg h]

theorem mergeManualDaily_keys (acc : List (Nat × DailySummaryEntry))
    (rows : List ManualDailyRow) :
    (mergeManualDaily acc rows).map Prod.fst = acc.map Prod.fst := by
  unfold mergeManualDaily
  induction rows generalizing acc with
  | nil => rfl
  | cons r rest ih =>
    rw [List.foldl_cons, ih, mergeManualStep_keys]

theorem orderedDailySummary_map_date (acc : List (Nat × DailySummaryEntry)) :
    (orderedDailySummary acc).map (fun e => e.date) =
      (List.insertionSort (fun a b : Nat × DailySummaryEntry => a.1 ≤ b.1) acc).map
        Prod.fst := by
  unfold orderedDailySummary
  rw [List.map_map]
  rfl

theorem orderedDailySummary_dates_sorted (acc : List (Nat × DailySummaryEntry)) :
    ((orderedDailySummary acc).map (fun e => e.date)).Sorted (· ≤ ·) := by
  rw [orderedDailySummary_map_date]
  haveI : IsTotal (Nat × DailySummaryEntry) (fun a b => a.1 ≤ b.1) :=
    ⟨fun a b => Nat.le_total a.1 b.1⟩
  haveI : IsTrans (Nat × DailySummaryEntry) (fun a b => a.1 ≤ b.1) :=
    ⟨fun _ _ _ hab hbc => le_trans hab hbc⟩
  have hs := List.sorted_insertionSort
    (fun a b : Nat × DailySummaryEntry => a.1 ≤ b.1) acc
  unfold List.Sorted at hs ⊢
  rw [List.pairwise_map]
  exact hs

theorem orderedDailySummary_dates_nodup (acc : List (Nat × DailySummaryEntry))
    (h : (acc.map Prod.fst).Nodup) :
    ((orderedDailySummary acc).map (fun e => e.date)).Nodup := by
  rw [orderedDailySummary_map_date]
  have hp := List.perm_insertionSort
    (fun a b : Nat × DailySummaryEntry => a.1 ≤ b.1) acc
  exact ((hp.map Prod.fst).nodup_iff).mpr h

theorem orderedDailySummary_dates_strict (acc : List (Nat × DailySummaryEntry))
    (h : (acc.map Prod.fst).Nodup) :
    ((orderedDailySummary acc).map (fun e => e.date)).Pairwise (· < ·) := by
  have hs := orderedDailySummary_dates_sorted acc
  have hn := orderedDailySummary_dates_nodup acc h
  unfold List.Sorted at hs
  unfold List.Nodup at hn
  exact (hs.and hn).imp (fun hab => lt_of_le_of_ne hab.1 hab.2)

/-! ## The cumulative pass -/

/-- Reference prefix sums with offset, for specifying
`addConfirmedCumulative`. -/
def scanSums (c : Nat) : List Nat → List Nat
  | [] => []
  | x :: xs => (c + x) :: scanSums (c + x) xs

theorem scanSums_length (c : Nat) (xs : List Nat) :
    (scanSums c xs).length = xs.length := by
  induction xs generalizing c with
  | nil => rfl
  | cons x xs ih => simp [scanSums, ih]

theorem scanSums_getElem (xs : List Nat) (c : Nat) (i : Nat)
    (h : i < (scanSums c xs).length) :
    (scanSums c xs)[i] = c + ((xs.take (i + 1)).sum) := by
  induction xs generalizing c i with
  | nil => simp [scanSums] at h
  | cons x xs ih =>
    cases i with
    | zero => simp [scanSums]
    | succ i =>
      simp only [scanSums, List.getElem_cons_succ, List.take_succ_cons,
        List.sum_cons]
      rw [ih]
      omega

theorem addConfirmedCumulative_length (c : Nat) (l : List DailySummaryEntry) :
    (addConfirmedCumulative c l).length = l.length := by
  induction l generalizing c with
  | nil => rfl
  | cons e rest ih => simp [addConfirmedCumulative, ih]

theorem addConfirmedCumulative_map_confirmed (c : Nat)
    (l : List DailySummaryEntry) :
    (addConfirmedCumulative c l).map (fun e => e.confirmed) =
      l.map (fun e => e.confirmed) := by
  induction l generalizing c with
  | nil => rfl
  | cons e rest ih => simp [addConfirmedCumulative, ih]

theorem addConfirmedCumulative_map_date (c : Nat)
    (l : List DailySummaryEntry) :
    (addConfirmedCumulative c l).map (fun e => e.date) =
      l.map (fun e => e.date) := by
  induction l generalizing c with
  | nil => rfl
  | cons e rest ih => simp [addConfirmedCumulative, ih]

theorem addConfirmedCumulative_map_cc (c : Nat) (l : List DailySummaryEntry) :
    (addConfirmedCumulative c l).map (fun e => e.confirmedCumulative) =
      scanSums c (l.map (fun e => e.confirmed)) := by
  induction l generalizing c with
  | nil => rfl
  | cons e rest ih => simp [addConfirmedCumulative, scanSums, ih]

/-! ## The rolling-average pass -/

/-- Last `n` elements of a list. -/
def lastN (n : Nat) (l : List Nat) : List Nat :=
  l.drop (l.length - n)

theorem lastN_length_le (n : Nat) (l : List Nat) : (lastN n l).length ≤ n := by
  unfold lastN
  rw [List.length_drop]
  omega

theorem lastN_of_short (n : Nat) (l : List Nat) (h : l.length ≤ n) :
    lastN n l = l := by
  unfold lastN
  rw [Nat.sub_eq_zero_of_le h, List.drop_zero]

/-- Dropping elements in front of the last `n` does not change the last
`n`. -/
theorem lastN_append_absorb (n : Nat) (a t : List Nat) :
    lastN n (lastN n a ++ t) = lastN n (a ++ t) := by
  unfold lastN
  rw [List.length_append, List.length_append, List.length_drop]
  rw [List.drop_append_eq_append_drop, List.drop_append_eq_append_drop,
    List.drop_drop, List.length_drop]
  have h1 : a.length - n + (a.length - (a.length - n) + t.length - n) =
      a.length + t.length - n := by omega
  have h2 : a.length - (a.length - n) + t.length - n -
      (a.length - (a.length - n)) = a.length + t.length - n - a.length := by
    omega
  rw [h1, h2]

/-- The buffer push-and-clip step equals taking the last `n` of the pushed
list, provided the buffer already held at most `n` elements. -/
theorem clip_eq_lastN (n : Nat) (b : List Nat) (x : Nat) :
    (if n < (b ++ [x]).length then
      (b ++ [x]).drop ((b ++ [x]).length - n) else b ++ [x]) =
      lastN n (b ++ [x]) := by
  unfold lastN
  by_cases hc : n < (b ++ [x]).length
  · rw [if_pos hc]
  · rw [if_neg hc, Nat.sub_eq_zero_of_le (by omega), List.drop_zero]

/-- The floor-divided sum of the trailing `w`-window of the first `k + 1`
values of `xs`. -/
def windowAvg (w : Nat) (xs : List Nat) (k : Nat) : Nat :=
  (lastN w (xs.take (k + 1))).sum / w

theorem addAverages_length (b3 b7 : List Nat) (c3 c7 : Nat)
    (l : List DailySummaryEntry) :
    (addAverages b3 b7 c3 c7 l).length = l.length := by
  induction l generalizing b3 b7 c3 c7 with
  | nil => rfl
  | cons e rest ih => simp only [addAverages, List.length_cons, ih]

theorem addAverages_map_confirmed (b3 b7 : List Nat) (c3 c7 : Nat)
    (l : List DailySummaryEntry) :
    (addAverages b3 b7 c3 c7 l).map (fun e => e.confirmed) =
      l.map (fun e => e.confirmed) := by
  induction l generalizing b3 b7 c3 c7 with
  | nil => rfl
  | cons e rest ih => simp only [addAverages, List.map_cons, ih]

theorem addAverages_map_date (b3 b7 : List Nat) (c3 c7 : Nat)
    (l : List DailySummaryEntry) :
    (addAverages b3 b7 c3 c7 l).map (fun e => e.date) =
      l.map (fun e => e.date) := by
  induction l generalizing b3 b7 c3 c7 with
  | nil => rfl
  | cons e rest ih => simp only [addAverages, List.map_cons, ih]

theorem addAverages_map_cc (b3 b7 : List Nat) (c3 c7 : Nat)
    (l : List DailySummaryEntry) :
    (addAverages b3 b7 c3 c7 l).map (fun e => e.confirmedCumulative) =
      l.map (fun e => e.confirmedCumulative) := by
  induction l generalizing b3 b7 c3 c7 with
  | nil => rfl
  | cons e rest ih => simp only [addAverages, List.map_cons, ih]

theorem addAverages_cons_lastN (pre : List Nat) (c3 c7 : Nat)
    (e : DailySummaryEntry) (rest : List DailySummaryEntry) :
    addAverages (lastN 3 pre) (lastN 7 pre) c3 c7 (e :: rest) =
      { e with
        confirmedAvg3d := (lastN 3 (pre ++ [e.confirmed])).sum / 3,
        confirmedCumulativeAvg3d :=
          c3 + (lastN 3 (pre ++ [e.confirmed])).sum / 3,
        confirmedAvg7d := (lastN 7 (pre ++ [e.confirmed])).sum / 7,
        confirmedCumulativeAvg7d :=
          c7 + (lastN 7 (pre ++ [e.confirmed])).sum / 7 } ::
      addAverages (lastN 3 (pre ++ [e.confirmed]))
        (lastN 7 (pre ++ [e.confirmed]))
        (c3 + (lastN 3 (pre ++ [e.confirmed])).sum / 3)
        (c7 + (lastN 7 (pre ++ [e.confirmed])).sum / 7) rest := by
  simp only [addAverages]
  rw [clip_eq_lastN, clip_eq_lastN, lastN_append_absorb, lastN_append_absorb]

theorem range_windowAvg_sum (i : Nat) (w : Nat) (xs : List Nat) (m : Nat) :
    ((List.range (i + 1 + 1)).map (fun j => windowAvg w xs (m + j))).sum =
      windowAvg w xs m +
        ((List.range (i + 1)).map
          (fun j => windowAvg w xs (m + 1 + j))).sum := by
  rw [show List.range (i + 1 + 1) = 0 :: List.map Nat.succ (List.range (i + 1))
    from List.range_succ_eq_map (i + 1), List.map_cons, List.sum_cons,
    List.map_map]
  have hmap : List.map ((fun j => windowAvg w xs (m + j)) ∘ Nat.succ)
      (List.range (i + 1)) =
      List.map (fun j => windowAvg w xs (m + 1 + j)) (List.range (i + 1)) := by
    apply List.map_congr_left
    intro j _
    show windowAvg w xs (m + (j + 1)) = windowAvg w xs (m + 1 + j)
    congr 1
    omega
  rw [hmap]
  show windowAvg w xs (m + 0) + _ = _
  rw [Nat.add_zero]

theorem addAverages_spec (l : List DailySummaryEntry) :
    ∀ (pre : List Nat) (c3 c7 : Nat) (i : Nat)
      (ho : i < (addAverages (lastN 3 pre) (lastN 7 pre) c3 c7 l).length),
      (addAverages (lastN 3 pre) (lastN 7 pre) c3 c7 l)[i].confirmedAvg3d =
          windowAvg 3 (pre ++ l.map (fun e => e.confirmed))
            (pre.length + i) ∧
      (addAverages (lastN 3 pre) (lastN 7 pre) c3 c7 l)[i].confirmedAvg7d =
          windowAvg 7 (pre ++ l.map (fun e => e.confirmed))
            (pre.length + i) ∧
      (addAverages (lastN 3 pre) (lastN 7 pre) c3 c7
            l)[i].confirmedCumulativeAvg3d =
          c3 + ((List.range (i + 1)).map
            (fun j => windowAvg 3 (pre ++ l.map (fun e => e.confirmed))
              (pre.length + j))).sum ∧
      (addAverages (lastN 3 pre) (lastN 7 pre) c3 c7
            l)[i].confirmedCumulativeAvg7d =
          c7 + ((List.range (i + 1)).map
            (fun j => windowAvg 7 (pre ++ l.map (fun e => e.confirmed))
              (pre.length + j))).sum := by
  induction l with
  | nil =>
    intro pre c3 c7 i ho
    simp [addAverages] at ho
  | cons e rest ih =>
    intro pre c3 c7 i ho
    have htake : (pre ++ (e :: rest).map (fun v => v.confirmed)).take
        (pre.length + 1) = pre ++ [e.confirmed] := by
      rw [List.map_cons, List.take_append, List.take_succ_cons,
        List.take_zero]
    cases i with
    | zero =>
      have havg3 : windowAvg 3
          (pre ++ (e :: rest).map (fun v => v.confirmed)) (pre.length + 0) =
          (lastN 3 (pre ++ [e.confirmed])).sum / 3 := by
        unfold windowAvg
        rw [Nat.add_zero, htake]
      have havg7 : windowAvg 7
          (pre ++ (e :: rest).map (fun v => v.confirmed)) (pre.length + 0) =
          (lastN 7 (pre ++ [e.confirmed])).sum / 7 := by
        unfold windowAvg
        rw [Nat.add_zero, htake]
      simp only [addAverages_cons_lastN, List.getElem_cons_zero]
      refine ⟨havg3.symm, havg7.symm, ?_, ?_⟩
      · have hr : List.range (0 + 1) = [0] := rfl
        rw [hr, List.map_singleton, List.sum_singleton, havg3]
      · have hr : List.range (0 + 1) = [0] := rfl
        rw [hr, List.map_singleton, List.sum_singleton, havg7]
    | succ i =>
      have ho2 : i < (addAverages (lastN 3 (pre ++ [e.confirmed]))
          (lastN 7 (pre ++ [e.confirmed]))
          (c3 + (lastN 3 (pre ++ [e.confirmed])).sum / 3)
          (c7 + (lastN 7 (pre ++ [e.confirmed])).sum / 7) rest).length := by
        rw [addAverages_length]
        rw [addAverages_length] at ho
        simpa using ho
      obtain ⟨ih1, ih2, ih3, ih4⟩ := ih (pre ++ [e.confirmed])
        (c3 + (lastN 3 (pre ++ [e.confirmed])).sum / 3)
        (c7 + (lastN 7 (pre ++ [e.confirmed])).sum / 7) i ho2
      have hxs : (pre ++ [e.confirmed]) ++ rest.map (fun v => v.confirmed) =
          pre ++ (e :: rest).map (fun v => v.confirmed) := by
        rw [List.map_cons, List.append_assoc, List.singleton_append]
      simp only [hxs, List.length_append, List.length_singleton]
        at ih1 ih2 ih3 ih4
      have hidx : pre.length + 1 + i = pre.length + (i + 1) := by omega
      rw [hidx] at ih1 ih2
      have havg3 : windowAvg 3
          (pre ++ (e :: rest).map (fun v => v.confirmed)) pre.length =
          (lastN 3 (pre ++ [e.confirmed])).sum / 3 := by
        unfold windowAvg
        rw [htake]
      have havg7 : windowAvg 7
          (pre ++ (e :: rest).map (fun v => v.confirmed)) pre.length =
          (lastN 7 (pre ++ [e.confirmed])).sum / 7 := by
        unfold windowAvg
        rw [htake]
      simp only [addAverages_cons_lastN, List.getElem_cons_succ]
      refine ⟨ih1, ih2, ?_, ?_⟩
      · rw [ih3, range_windowAvg_sum, havg3]
        omega
      · rw [ih4, range_windowAvg_sum, havg7]
        omega

/-! ## The forward-fill pass -/

theorem forwardFillFrom_length (l : List DailySummaryEntry)
    (prev : DailySummaryEntry) :
    (forwardFillFrom prev l).length = l.length := by
  induction l generalizing prev with
  | nil => rfl
  | cons e rest ih => simp only [forwardFillFrom, List.length_cons, ih]

theorem forwardFill_length (l : List DailySummaryEntry) :
    (forwardFill l).length = l.length := by
  cases l with
  | nil => rfl
  | cons e rest =>
    simp only [forwardFill, List.length_cons, forwardFillFrom_length]

/-- `fillFromPrevious` only touches the four manual cumulative fields. -/
theorem fillFromPrevious_untouched (prev e : DailySummaryEntry) :
    (fillFromPrevious prev e).confirmed = e.confirmed ∧
    (fillFromPrevious prev e).date = e.date ∧
    (fillFromPrevious prev e).confirmedCumulative = e.confirmedCumulative ∧
    (fillFromPrevious prev e).confirmedAvg3d = e.confirmedAvg3d ∧
    (fillFromPrevious prev e).confirmedCumulativeAvg3d =
      e.confirmedCumulativeAvg3d ∧
    (fillFromPrevious prev e).confirmedAvg7d = e.confirmedAvg7d ∧
    (fillFromPrevious prev e).confirmedCumulativeAvg7d =
      e.confirmedCumulativeAvg7d :=
  ⟨rfl, rfl, rfl, rfl, rfl, rfl, rfl⟩

theorem forwardFillFrom_map {α : Type} (f : DailySummaryEntry → α)
    (hf : ∀ prev e, f (fillFromPrevious prev e) = f e)
    (l : List DailySummaryEntry) (prev : DailySummaryEntry) :
    (forwardFillFrom prev l).map f = l.map f := by
  induction l generalizing prev with
  | nil => rfl
  | cons e rest ih =>
    simp only [forwardFillFrom, List.map_cons, ih, hf]

theorem forwardFill_map {α : Type} (f : DailySummaryEntry → α)
    (hf : ∀ prev e, f (fillFromPrevious prev e) = f e)
    (l : List DailySummaryEntry) :
    (forwardFill l).map f = l.map f := by
  cases l with
  | nil => rfl
  | cons e rest =>
    simp only [forwardFill, List.map_cons, forwardFillFrom_map f hf]

theorem forwardFillFrom_getElem (l : List DailySummaryEntry) :
    ∀ (prev : DailySummaryEntry) (i : Nat) (hi : i < l.length)
      (ho : i < (forwardFillFrom prev l).length)
      (hp : i < (prev :: forwardFillFrom prev l).length),
      (forwardFillFrom prev l)[i] =
        fillFromPrevious ((prev :: forwardFillFrom prev l)[i]) l[i] := by
  induction l with
  | nil =>
    intro prev i hi _ _
    exact absurd hi (by simp)
  | cons e rest ih =>
    intro prev i hi ho hp
    cases i with
    | zero => rfl
    | succ i =>
      have hi2 : i < rest.length := by
        rw [List.length_cons] at hi
        omega
      have ho2 : i < (forwardFillFrom (fillFromPrevious prev e) rest).length := by
        rw [forwardFillFrom_length]
        exact hi2
      have hp2 : i < (fillFromPrevious prev e ::
          forwardFillFrom (fillFromPrevious prev e) rest).length := by
        rw [List.length_cons, forwardFillFrom_length]
        omega
      show (forwardFillFrom (fillFromPrevious prev e) rest)[i] = _
      rw [ih (fillFromPrevious prev e) i hi2 ho2 hp2]
      rfl

theorem forwardFill_getElem_zero (l : List DailySummaryEntry)
    (hi : 0 < l.length) (ho : 0 < (forwardFill l).length) :
    (forwardFill l)[0] = l[0] := by
  cases l with
  | nil => exact absurd hi (by simp)
  | cons e rest => rfl

theorem forwardFill_getElem_succ (l : List DailySummaryEntry) (i : Nat)
    (hi : i + 1 < l.length) (ho : i + 1 < (forwardFill l).length)
    (hp : i < (forwardFill l).length) :
    (forwardFill l)[i + 1] =
      fillFromPrevious ((forwardFill l)[i]) l[i + 1] := by
  cases l with
  | nil => exact absurd hi (by simp)
  | cons e rest =>
    have hi2 : i < rest.length := by
      rw [List.length_cons] at hi
      omega
    have ho2 : i < (forwardFillFrom e rest).length := by
      rw [forwardFillFrom_length]
      exact hi2
    have hp2 : i < (e :: forwardFillFrom e rest).length := by
      rw [List.length_cons, forwardFillFrom_length]
      omega
    show (forwardFillFrom e rest)[i] = _
    rw [forwardFillFrom_getElem rest e i hi2 ho2 hp2]
    rfl

/-- Claim C4: in the forward-fill pass of the daily summary builder, every
entry from the second onward gets, for each of the four `*Cumulative`
fields, the previous (already forward-filled) entry's value exactly when
its own value is 0, and keeps its own value otherwise; the first entry and
all other fields are untouched, and the pass preserves length.  (The pass
is the one `generateDailySummary` runs right before validation, see
`preForwardFill`.) -/
theorem claim_C4_forwardFill (l : List DailySummaryEntry) :
    (forwardFill l).length = l.length ∧
    (∀ ho : 0 < (forwardFill l).length, ∀ hi : 0 < l.length,
      (forwardFill l)[0] = l[0]) ∧
    (∀ i (hi : i + 1 < l.length) (ho : i + 1 < (forwardFill l).length)
        (hp : i < (forwardFill l).length),
      (forwardFill l)[i + 1].recoveredCumulative =
        (if l[i + 1].recoveredCumulative = 0
          then (forwardFill l)[i].recoveredCumulative
          else l[i + 1].recoveredCumulative) ∧
      (forwardFill l)[i + 1].deceasedCumulative =
        (if l[i + 1].deceasedCumulative = 0
          then (forwardFill l)[i].deceasedCumulative
          else l[i + 1].deceasedCumulative) ∧
      (forwardFill l)[i + 1].criticalCumulative =
        (if l[i + 1].criticalCumulative = 0
          then (forwardFill l)[i].criticalCumulative
          else l[i + 1].criticalCumulative) ∧
      (forwardFill l)[i + 1].testedCumulative =
        (if l[i + 1].testedCumulative = 0
          then (forwardFill l)[i].testedCumulative
          else l[i + 1].testedCumulative) ∧
      (forwardFill l)[i + 1].confirmed = l[i + 1].confirmed ∧
      (forwardFill l)[i + 1].date = l[i + 1].date ∧
      (forwardFill l)[i + 1].confirmedCumulative =
        l[i + 1].confirmedCumulative) := by
  refine ⟨forwardFill_length l,
    fun ho hi => forwardFill_getElem_zero l hi ho, ?_⟩
  intro i hi ho hp
  rw [forwardFill_getElem_succ l i hi ho hp]
  unfold fillFromPrevious
  refine ⟨?_, ?_, ?_, ?_, rfl, rfl, rfl⟩
  all_goals
    dsimp only
    split
    next hb =>
      rw [if_pos (by simpa using hb)]
    next hb =>
      rw [if_neg (by simpa using hb)]

/-- A two-day series exercising the forward-fill behaviour. -/
def fillSample : List DailySummaryEntry :=
  [{ recoveredCumulative := 7, deceasedCumulative := 1,
     criticalCumulative := 1, testedCumulative := 1 },
   { recoveredCumulative := 0, deceasedCumulative := 5,
     criticalCumulative := 0, testedCumulative := 2 }]

/-- Witness for C4: a manual 0 on the second day inherits the first day's
7, while the nonzero 5 is kept as-is. -/
theorem claim_C4_witness :
    ((forwardFill fillSample).getD 1 {}).recoveredCumulative = 7 ∧
    ((forwardFill fillSample).getD 1 {}).deceasedCumulative = 5 := by
  obtain ⟨hlen, hzero, hsucc⟩ := claim_C4_forwardFill fillSample
  have ho : (1 : Nat) < (forwardFill fillSample).length := by
    rw [hlen]
    decide
  have hp : (0 : Nat) < (forwardFill fillSample).length := by
    rw [hlen]
    decide
  obtain ⟨hrec, hdec, -⟩ := hsucc 0 (by decide) ho hp
  rw [List.getD_eq_getElem _ _ ho]
  constructor
  · rw [hrec, if_pos (by decide), hzero hp (by decide)]
    decide
  · rw [hdec, if_neg (by decide)]
    decide

/-- On success the validator hands back exactly its argument. -/
theorem verifyDailySummary_ok_inv (x y : List DailySummaryEntry)
    (h : verifyDailySummary x = .ok y) : y = x := by
  by_cases hl : x.length < 10
  · unfold verifyDailySummary at h
    rw [if_pos hl] at h
    exact absurd h (by simp)
  · rw [verifyDailySummary_ok_of_long x hl] at h
    injection h with h
    exact h.symm

/-- Sums of prefixes of a list of naturals are monotone in the prefix
length. -/
theorem sum_take_le (xs : List Nat) (i j : Nat) (hij : i ≤ j) :
    (xs.take i).sum ≤ (xs.take j).sum := by
  have h1 : xs.take i = (xs.take j).take i := by
    rw [List.take_take, Nat.min_eq_left hij]
  rw [h1]
  obtain ⟨t, ht⟩ := List.take_prefix i (xs.take j)
  have hs := @List.sum_append Nat _ ((xs.take j).take i) t
  rw [ht] at hs
  omega

/-- Claim C3: a daily series produced by `generateDailySummary` is
strictly ordered by date ascending, each entry's `confirmedCumulative` is
the running sum of `confirmed` up to and including that entry, and the
`confirmedCumulative` sequence is non-decreasing. -/
theorem claim_C3_ordering_and_cumulative (patients : List Patient)
    (rows : List ManualDailyRow) (series : List DailySummaryEntry)
    (h : generateDailySummary patients rows = .ok series) :
    (series.map (fun e => e.date)).Pairwise (· < ·) ∧
    (∀ i (hi : i < series.length),
      series[i].confirmedCumulative =
        ((series.map (fun e => e.confirmed)).take (i + 1)).sum) ∧
    (∀ i j (hi : i < series.length) (hj : j < series.length), i ≤ j →
      series[i].confirmedCumulative ≤ series[j].confirmedCumulative) := by
  have hser : series = forwardFill (preForwardFill patients rows) :=
    verifyDailySummary_ok_inv _ _ h
  have hdate : series.map (fun e => e.date) =
      (orderedDailySummary
        (mergeManualDaily (dailyGroups patients) rows)).map
        (fun e => e.date) := by
    rw [hser]
    unfold preForwardFill
    rw [forwardFill_map (fun e => e.date) (fun prev e => rfl),
      addAverages_map_date, addConfirmedCumulative_map_date]
  have hconf : series.map (fun e => e.confirmed) =
      (orderedDailySummary
        (mergeManualDaily (dailyGroups patients) rows)).map
        (fun e => e.confirmed) := by
    rw [hser]
    unfold preForwardFill
    rw [forwardFill_map (fun e => e.confirmed) (fun prev e => rfl),
      addAverages_map_confirmed, addConfirmedCumulative_map_confirmed]
  have hcc : series.map (fun e => e.confirmedCumulative) =
      scanSums 0 (series.map (fun e => e.confirmed)) := by
    rw [hser]
    unfold preForwardFill
    rw [forwardFill_map (fun e => e.confirmedCumulative) (fun prev e => rfl),
      addAverages_map_cc, addConfirmedCumulative_map_cc, ← hconf, hser]
    unfold preForwardFill
    rw [forwardFill_map (fun e => e.confirmed) (fun prev e => rfl),
      addAverages_map_confirmed]
  have hmid : ∀ i (hi : i < series.length),
      series[i].confirmedCumulative =
        ((series.map (fun e => e.confirmed)).take (i + 1)).sum := by
    intro i hi
    have hilt : i < (series.map (fun e => e.confirmedCumulative)).length := by
      rw [List.length_map]
      exact hi
    have h1 : series[i].confirmedCumulative =
        (series.map (fun e => e.confirmedCumulative))[i] :=
      (List.getElem_map _).symm
    have h2 := List.getElem_of_eq hcc hilt
    have hb : i < (scanSums 0 (series.map (fun e => e.confirmed))).length := by
      rw [scanSums_length, List.length_map]
      exact hi
    rw [h1, h2, scanSums_getElem _ _ _ hb, Nat.zero_add]
  refine ⟨?_, hmid, ?_⟩
  · rw [hdate]
    exact orderedDailySummary_dates_strict _
      (by rw [mergeManualDaily_keys]; exact dailyGroups_keys_nodup patients)
  · intro i j hi hj hij
    rw [hmid i hi, hmid j hj]
    exact sum_take_le _ _ _ (by omega)

/-- Ten days of records with daily confirmed counts 1,2,3,4,1,1,1,1,1,1. -/
def samplePatients : List Patient :=
  List.replicate 1
      ({ dateAnnounced := some 0, confirmedPatient := true } : Patient) ++
  List.replicate 2
      ({ dateAnnounced := some 1, confirmedPatient := true } : Patient) ++
  List.replicate 3
      ({ dateAnnounced := some 2, confirmedPatient := true } : Patient) ++
  List.replicate 4
      ({ dateAnnounced := some 3, confirmedPatient := true } : Patient) ++
  ((List.range 6).map (fun d =>
    ({ dateAnnounced := some (4 + d), confirmedPatient := true } : Patient)))

/-- The daily series the builder produces for `samplePatients`. -/
def sampleSeries : List DailySummaryEntry :=
  forwardFill (preForwardFill samplePatients [])

/-- Witness for C3: the sample run succeeds and its dates are strictly
increasing. -/
theorem claim_C3_witness :
    generateDailySummary samplePatients [] = Except.ok sampleSeries ∧
    (sampleSeries.map (fun e => e.date)).Pairwise (· < ·) :=
  ⟨rfl,
   (claim_C3_ordering_and_cumulative samplePatients [] sampleSeries rfl).1⟩

/-- Equal images under `map` give equal images pointwise. -/
theorem map_getElem_eq {α β : Type} (f : α → β) (l₁ l₂ : List α)
    (hmap : l₁.map f = l₂.map f) (i : Nat)
    (h1 : i < l₁.length) (h2 : i < l₂.length) :
    f (l₁[i]) = f (l₂[i]) := by
  have hb : i < (l₁.map f).length := by
    rw [List.length_map]
    exact h1
  have hx := List.getElem_of_eq hmap hb
  simp only [List.getElem_map] at hx
  exact hx

/-- `windowAvg` written with an explicit `drop` of the front of the
prefix. -/
theorem windowAvg_eq (w : Nat) (cs : List Nat) (i : Nat)
    (hi : i < cs.length) :
    windowAvg w cs i = ((cs.take (i + 1)).drop (i + 1 - w)).sum / w := by
  unfold windowAvg lastN
  rw [List.length_take, Nat.min_eq_left (by omega)]

/-- `addAverages` with the empty buffers the pipeline starts from. -/
theorem addAverages_spec_nil (X : List DailySummaryEntry) (i : Nat)
    (ho : i < (addAverages [] [] 0 0 X).length) :
    (addAverages [] [] 0 0 X)[i].confirmedAvg3d =
        windowAvg 3 (X.map (fun e => e.confirmed)) i ∧
    (addAverages [] [] 0 0 X)[i].confirmedAvg7d =
        windowAvg 7 (X.map (fun e => e.confirmed)) i ∧
    (addAverages [] [] 0 0 X)[i].confirmedCumulativeAvg3d =
        ((List.range (i + 1)).map
          (fun j => windowAvg 3 (X.map (fun e => e.confirmed)) j)).sum ∧
    (addAverages [] [] 0 0 X)[i].confirmedCumulativeAvg7d =
        ((List.range (i + 1)).map
          (fun j => windowAvg 7 (X.map (fun e => e.confirmed)) j)).sum := by
  obtain ⟨h1, h2, h3, h4⟩ := addAverages_spec X [] 0 0 i ho
  simp only [List.nil_append, List.length_nil, Nat.zero_add] at h1 h2 h3 h4
  exact ⟨h1, h2, h3, h4⟩

/-- Claim C2: in a produced daily series, `confirmedAvg3d` at (0-based)
position `i` is the floor of (sum of the last `min(3, i+1)` confirmed
values) divided by the nominal 3 — likewise for the 7-day window — and the
two cumulative averages are the running sums of the corresponding average
fields. -/
theorem claim_C2_rollingAverages (patients : List Patient)
    (rows : List ManualDailyRow) (series : List DailySummaryEntry)
    (h : generateDailySummary patients rows = .ok series)
    (i : Nat) (hi : i < series.length) :
    series[i].confirmedAvg3d =
      (((series.map (fun e => e.confirmed)).take (i + 1)).drop
        (i + 1 - 3)).sum / 3 ∧
    series[i].confirmedAvg7d =
      (((series.map (fun e => e.confirmed)).take (i + 1)).drop
        (i + 1 - 7)).sum / 7 ∧
    series[i].confirmedCumulativeAvg3d =
      ((series.map (fun e => e.confirmedAvg3d)).take (i + 1)).sum ∧
    series[i].confirmedCumulativeAvg7d =
      ((series.map (fun e => e.confirmedAvg7d)).take (i + 1)).sum := by
  have hser : series = forwardFill (preForwardFill patients rows) :=
    verifyDailySummary_ok_inv _ _ h
  subst hser
  have hiP : i < (preForwardFill patients rows).length := by
    rw [forwardFill_length] at hi
    exact hi
  have hlenP : (preForwardFill patients rows).length =
      (addConfirmedCumulative 0 (orderedDailySummary
        (mergeManualDaily (dailyGroups patients) rows))).length := by
    unfold preForwardFill
    rw [addAverages_length]
  have hconfmap : (forwardFill (preForwardFill patients rows)).map
      (fun e => e.confirmed) =
      (addConfirmedCumulative 0 (orderedDailySummary
        (mergeManualDaily (dailyGroups patients) rows))).map
        (fun e => e.confirmed) := by
    rw [forwardFill_map (fun e => e.confirmed) (fun prev e => rfl)]
    unfold preForwardFill
    rw [addAverages_map_confirmed]
  have hcs : i < ((addConfirmedCumulative 0 (orderedDailySummary
      (mergeManualDaily (dailyGroups patients) rows))).map
      (fun e => e.confirmed)).length := by
    rw [List.length_map, ← hlenP]
    exact hiP
  -- pointwise average values, for every index
  have havg : ∀ j (hj : j < (forwardFill (preForwardFill patients
      rows)).length),
      (forwardFill (preForwardFill patients rows))[j].confirmedAvg3d =
        windowAvg 3 ((addConfirmedCumulative 0 (orderedDailySummary
          (mergeManualDaily (dailyGroups patients) rows))).map
          (fun e => e.confirmed)) j ∧
      (forwardFill (preForwardFill patients rows))[j].confirmedAvg7d =
        windowAvg 7 ((addConfirmedCumulative 0 (orderedDailySummary
          (mergeManualDaily (dailyGroups patients) rows))).map
          (fun e => e.confirmed)) j := by
    intro j hj
    have hjP : j < (preForwardFill patients rows).length := by
      rw [forwardFill_length] at hj
      exact hj
    have htr3 := map_getElem_eq (fun e => e.confirmedAvg3d) _ _
      (forwardFill_map (fun e => e.confirmedAvg3d) (fun prev e => rfl)
        (preForwardFill patients rows)) j hj hjP
    have htr7 := map_getElem_eq (fun e => e.confirmedAvg7d) _ _
      (forwardFill_map (fun e => e.confirmedAvg7d) (fun prev e => rfl)
        (preForwardFill patients rows)) j hj hjP
    have hspec := addAverages_spec_nil (addConfirmedCumulative 0
      (orderedDailySummary (mergeManualDaily (dailyGroups patients) rows)))
      j hjP
    exact ⟨htr3.trans hspec.1, htr7.trans hspec.2.1⟩
  refine ⟨?_, ?_, ?_, ?_⟩
  · rw [(havg i hi).1, hconfmap,
      windowAvg_eq 3 _ i (by rw [List.length_map, ← hlenP]; exact hiP)]
  · rw [(havg i hi).2, hconfmap,
      windowAvg_eq 7 _ i (by rw [List.length_map, ← hlenP]; exact hiP)]
  · have htr := map_getElem_eq (fun e => e.confirmedCumulativeAvg3d) _ _
      (forwardFill_map (fun e => e.confirmedCumulativeAvg3d)
        (fun prev e => rfl) (preForwardFill patients rows)) i hi hiP
    have hspec := (addAverages_spec_nil (addConfirmedCumulative 0
      (orderedDailySummary (mergeManualDaily (dailyGroups patients) rows)))
      i hiP).2.2.1
    have hlist : ((forwardFill (preForwardFill patients rows)).map
        (fun e => e.confirmedAvg3d)).take (i + 1) =
        (List.range (i + 1)).map (fun j => windowAvg 3
          ((addConfirmedCumulative 0 (orderedDailySummary
            (mergeManualDaily (dailyGroups patients) rows))).map
            (fun e => e.confirmed)) j) := by
      apply List.ext_getElem
      · rw [List.length_take, List.length_map, List.length_map,
          List.length_range, Nat.min_eq_left (by omega)]
      · intro j h1 h2
        have hjlt : j < (forwardFill (preForwardFill patients
            rows)).length := by
          rw [List.length_take, List.length_map] at h1
          omega
        rw [List.getElem_take, List.getElem_map, List.getElem_map,
          List.getElem_range, (havg j hjlt).1]
    have hspec2 : (preForwardFill patients
        rows)[i].confirmedCumulativeAvg3d =
        ((List.range (i + 1)).map (fun j => windowAvg 3
          ((addConfirmedCumulative 0 (orderedDailySummary
            (mergeManualDaily (dailyGroups patients) rows))).map
            (fun e => e.confirmed)) j)).sum := hspec
    rw [htr, hspec2, hlist]
  · have htr := map_getElem_eq (fun e => e.confirmedCumulativeAvg7d) _ _
      (forwardFill_map (fun e => e.confirmedCumulativeAvg7d)
        (fun prev e => rfl) (preForwardFill patients rows)) i hi hiP
    have hspec := (addAverages_spec_nil (addConfirmedCumulative 0
      (orderedDailySummary (mergeManualDaily (dailyGroups patients) rows)))
      i hiP).2.2.2
    have hlist : ((forwardFill (preForwardFill patients rows)).map
        (fun e => e.confirmedAvg7d)).take (i + 1) =
        (List.range (i + 1)).map (fun j => windowAvg 7
          ((addConfirmedCumulative 0 (orderedDailySummary
            (mergeManualDaily (dailyGroups patients) rows))).map
            (fun e => e.confirmed)) j) := by
      apply List.ext_getElem
      · rw [List.length_take, List.length_map, List.length_map,
          List.length_range, Nat.min_eq_left (by omega)]
      · intro j h1 h2
        have hjlt : j < (forwardFill (preForwardFill patients
            rows)).length := by
          rw [List.length_take, List.length_map] at h1
          omega
        rw [List.getElem_take, List.getElem_map, List.getElem_map,
          List.getElem_range, (havg j hjlt).2]
    have hspec2 : (preForwardFill patients
        rows)[i].confirmedCumulativeAvg7d =
        ((List.range (i + 1)).map (fun j => windowAvg 7
          ((addConfirmedCumulative 0 (orderedDailySummary
            (mergeManualDaily (dailyGroups patients) rows))).map
            (fun e => e.confirmed)) j)).sum := hspec
    rw [htr, hspec2, hlist]

/-- Witness for C2: on the sample run with confirmed
[1,2,3,4,1,1,1,1,1,1], the 3-day averages start 0, 1, 2, 3 and the value
at position 3 follows the nominal-denominator formula. -/
theorem claim_C2_witness :
    generateDailySummary samplePatients [] = Except.ok sampleSeries ∧
    sampleSeries.map (fun e => e.confirmed) = [1, 2, 3, 4, 1, 1, 1, 1, 1, 1] ∧
    (sampleSeries.map (fun e => e.confirmedAvg3d)).take 4 = [0, 1, 2, 3] ∧
    (sampleSeries.getD 3 {}).confirmedAvg3d = 3 := by
  refine ⟨rfl, by decide, by decide, ?_⟩
  have hb : (3 : Nat) < sampleSeries.length := by decide
  have hav := (claim_C2_rollingAverages samplePatients [] sampleSeries rfl
    3 hb).1
  rw [List.getD_eq_getElem _ _ hb, hav]
  decide

/-! ## generatePrefectureSummary (summarize module) -/

/-- One region's accumulator/output record.  As with the daily entries,
fields the JS code adds later exist from the start with an "absent"
default (`none` models a property that was never assigned). -/
structure PrefectureEntry where
  confirmed : Nat := 0
  cruisePassenger : Nat := 0
  cruiseWorker : Nat := 0
  deaths : Int := 0
  patients : List Patient := []
  confirmedByCity : List (String × Nat) := []
  dailyConfirmedCount : Option (List Nat) := none
  dailyConfirmedStartDate : Option Nat := none
  newlyConfirmed : Option Nat := none
  recovered : Option Int := none
  name_ja : Option String := none
  name : String := ""
  deriving Repr, DecidableEq

/-- JS truthiness of a possibly-absent string (`""` is falsy). -/
def jsTruthyStr : Option String → Bool
  | none => false
  | some s => !s.isEmpty

/-- `confirmedByCity[cityName]` update: increment when the stored count is
truthy, otherwise (absent key, or a falsy 0) store 1. -/
def bumpCity (m : List (String × Nat)) (city : String) : List (String × Nat) :=
  match m.lookup city with
  | some n =>
    if n = 0 then modifyAssoc m city (fun _ => 1)
    else modifyAssoc m city (fun v => v + 1)
  | none => m ++ [(city, 1)]

/-- The per-record mutation of a region's accumulator (lines 152–174):
count confirmed patients (with per-city and cruise sub-counts), count
deaths independently of confirmation, and append the record to the
region's case list. -/
def applyPatient (patient : Patient) (e : PrefectureEntry) :
    PrefectureEntry :=
  let e := if patient.confirmedPatient then
      let e := { e with confirmed := e.confirmed + 1 }
      let e := if jsTruthyStr patient.detectedCityTown then
          { e with confirmedByCity :=
            bumpCity e.confirmedByCity (patient.detectedCityTown.getD "") }
        else e
      let e := if patient.cruisePassengerDisembarked == 1 then
          { e with cruisePassenger := e.cruisePassenger + 1 }
        else e
      if patient.cruiseQuarantineOfficer == 1 then
          { e with cruiseWorker := e.cruiseWorker + 1 }
      else e
    else e
  let e := if patient.patientStatus == "Deceased" then
      { e with deaths := e.deaths + 1 }
    else e
  { e with patients := e.patients ++ [patient] }

/-- One iteration of the region grouping loop (lines 137–175): create the
region lazily on first encounter, then apply the record. -/
def prefGroupStep (acc : List (String × PrefectureEntry)) (patient : Patient) :
    List (String × PrefectureEntry) :=
  let key := patient.detectedPrefecture
  let acc := if (acc.lookup key).isNone
    then acc ++ [((key, {}) : String × PrefectureEntry)] else acc
  modifyAssoc acc key (applyPatient patient)

/-- The region grouping loop over all records. -/
def prefectureGroups (patients : List Patient) :
    List (String × PrefectureEntry) :=
  patients.foldl prefGroupStep []

/-- `generateDailyStatsForPrefecture` (lines 212–223): one count per
calendar day from `firstDay` while `day <= lastDay`, counting the given
records announced that day with `confirmedPatient` set. -/
def generateDailyStatsForPrefecture (patients : List Patient)
    (firstDay lastDay : Nat) : List Nat :=
  (List.range' firstDay (lastDay + 1 - firstDay)).map
    (fun day => (patients.filter
      (fun o => o.dateAnnounced == some day && o.confirmedPatient)).length)

/-- The fixed epoch `moment('2020-01-08')`, as a day number (day 0 being
2020-01-01). -/
def day20200108 : Nat := 7

/-- Lines 178–185 for one region: attach the daily series, its start date
and the last element, but only when the series is non-empty (the clock
date `lastDay` is the ambient `moment()` read, passed explicitly). -/
def addDailyStats (lastDay : Nat) (prefecture : PrefectureEntry) :
    PrefectureEntry :=
  let dailyConfirmed :=
    generateDailyStatsForPrefecture prefecture.patients day20200108 lastDay
  if dailyConfirmed.length ≠ 0 then
    { prefecture with
      dailyConfirmedCount := some dailyConfirmed,
      dailyConfirmedStartDate := some day20200108,
      newlyConfirmed := some (dailyConfirmed.getLastD 0) }
  else prefecture

/-- The `_.keys` loop of lines 177–186, over every region. -/
def addDailyStatsAll (acc : List (String × PrefectureEntry))
    (lastDay : Nat) : List (String × PrefectureEntry) :=
  acc.map (fun kv => (kv.1, addDailyStats lastDay kv.2))

/-- One row of the Prefecture Data spreadsheet. -/
structure ManualPrefectureRow where
  prefecture : String := ""
  prefectureJa : String := ""
  recovered : JSValue := .vstr ""
  deaths : JSValue := .vstr ""
  deriving Repr, DecidableEq

/-- Lines 189–195: manual rows matching an existing region overwrite
`recovered`, `deaths` and `name_ja`. -/
def mergeManualPrefStep (acc : List (String × PrefectureEntry))
    (row : ManualPrefectureRow) : List (String × PrefectureEntry) :=
  if (acc.lookup row.prefecture).isSome then
    modifyAssoc acc row.prefecture (fun e =>
      { e with recovered := some (safeParseInt row.recovered),
               deaths := safeParseInt row.deaths,
               name_ja := some row.prefectureJa })
  else acc

/-- The manual-prefecture merge loop. -/
def mergeManualPrefecture (acc : List (String × PrefectureEntry))
    (rows : List ManualPrefectureRow) : List (String × PrefectureEntry) :=
  rows.foldl mergeManualPrefStep acc

/-- Lines 197–201: strip the working patients list from every region. -/
def stripPatients (acc : List (String × PrefectureEntry)) :
    List (String × PrefectureEntry) :=
  acc.map (fun kv => (kv.1, { kv.2 with patients := [] }))

/-- The `_.sortBy` iteratee of line 207. -/
def byConfirmed (a b : String × PrefectureEntry) : Prop :=
  a.2.confirmed ≤ b.2.confirmed

instance : DecidableRel byConfirmed :=
  fun a b => Nat.decLe a.2.confirmed b.2.confirmed

/-- `generatePrefectureSummary` (lines 134–210): group by region, attach
daily stats, merge manual rows, strip case lists, sort ascending by
`confirmed` (stable), reverse for descending order, and attach the region
key as `name`. -/
def generatePrefectureSummary (patients : List Patient)
    (manualPrefectureData : List ManualPrefectureRow) (lastDay : Nat) :
    List PrefectureEntry :=
  ((List.insertionSort byConfirmed
    (stripPatients (mergeManualPrefecture
      (addDailyStatsAll (prefectureGroups patients) lastDay)
      manualPrefectureData))).reverse).map
    (fun kv => { kv.2 with name := kv.1 })

/-! ## Association-list toolkit -/

theorem lookup_append {α β : Type} [BEq α] (l₁ l₂ : List (α × β)) (k : α) :
    (l₁ ++ l₂).lookup k =
      match l₁.lookup k with
      | some v => some v
      | none => l₂.lookup k := by
  induction l₁ with
  | nil => rfl
  | cons kv rest ih =>
    obtain ⟨a, b⟩ := kv
    rw [List.cons_append, List.lookup_cons, List.lookup_cons]
    cases h : (k == a) with
    | true => rfl
    | false => exact ih

theorem lookup_modifyAssoc_self {α β : Type} [BEq α] [LawfulBEq α]
    (l : List (α × β)) (k : α) (f : β → β) :
    (modifyAssoc l k f).lookup k = (l.lookup k).map f := by
  induction l with
  | nil => rfl
  | cons kv rest ih =>
    obtain ⟨a, b⟩ := kv
    unfold modifyAssoc at ih ⊢
    rw [List.map_cons]
    by_cases h : a = k
    · subst h
      rw [if_pos (by simp), List.lookup_cons, List.lookup_cons]
      simp
    · have hne : (a == k) = false := by simpa using h
      have hne2 : (k == a) = false := by
        simpa using fun hc => h hc.symm
      rw [if_neg (by simp [hne]), List.lookup_cons, List.lookup_cons, hne2]
      exact ih

theorem lookup_modifyAssoc_ne {α β : Type} [BEq α] [LawfulBEq α]
    (l : List (α × β)) (k k' : α) (f : β → β) (h : k' ≠ k) :
    (modifyAssoc l k f).lookup k' = l.lookup k' := by
  induction l with
  | nil => rfl
  | cons kv rest ih =>
    obtain ⟨a, b⟩ := kv
    unfold modifyAssoc at ih ⊢
    rw [List.map_cons]
    by_cases ha : a = k
    · subst ha
      have hne : (k' == a) = false := by simpa using h
      rw [if_pos (by simp), List.lookup_cons, List.lookup_cons, hne]
      exact ih
    · have hne : (a == k) = false := by simpa using ha
      rw [if_neg (by simp [hne]), List.lookup_cons, List.lookup_cons]
      cases hk : (k' == a) with
      | true => rfl
      | false => exact ih

theorem lookup_mapSnd {α β : Type} [BEq α] (g : β → β)
    (l : List (α × β)) (k : α) :
    (l.map (fun kv => (kv.1, g kv.2))).lookup k = (l.lookup k).map g := by
  induction l with
  | nil => rfl
  | cons kv rest ih =>
    obtain ⟨a, b⟩ := kv
    rw [List.map_cons, List.lookup_cons, List.lookup_cons]
    cases h : (k == a) with
    | true => rfl
    | false => exact ih

theorem lookup_of_mem_nodup {α β : Type} [BEq α] [LawfulBEq α]
    (l : List (α × β)) (kv : α × β) (hm : kv ∈ l)
    (hn : (l.map Prod.fst).Nodup) : l.lookup kv.1 = some kv.2 := by
  induction l with
  | nil => exact absurd hm (by simp)
  | cons hd rest ih =>
    obtain ⟨a, b⟩ := hd
    rw [List.map_cons, List.nodup_cons] at hn
    rcases List.mem_cons.mp hm with h | h
    · subst h
      rw [List.lookup_cons]
      simp
    · have hka : kv.1 ≠ a := by
        intro hc
        exact hn.1 (hc ▸ List.mem_map.mpr ⟨kv, h, rfl⟩)
      have : (kv.1 == a) = false := by simpa using hka
      rw [List.lookup_cons, this]
      exact ih h hn.2

theorem find?_eq_head?_filter {α : Type} (p : α → Bool) (l : List α) :
    l.find? p = (l.filter p).head? := by
  induction l with
  | nil => rfl
  | cons a rest ih =>
    rw [List.find?_cons, List.filter_cons]
    cases h : p a with
    | true => rfl
    | false =>
      rw [if_neg (by simp [h])]
      exact ih

theorem perm_eq_of_length_le_one {α : Type} (l l' : List α)
    (h : l.Perm l') (hl : l.length ≤ 1) : l = l' := by
  cases l with
  | nil =>
    have : l'.length = 0 := by
      rw [← h.length_eq]
      rfl
    rw [List.eq_nil_of_length_eq_zero this]
  | cons a rest =>
    cases rest with
    | nil => exact (List.perm_singleton.mp h.symm).symm
    | cons b r => simp at hl

theorem filter_length_le_one {α β : Type} [BEq β] [LawfulBEq β]
    (f : α → β) (l : List α) (k : β) (hn : (l.map f).Nodup) :
    (l.filter (fun e => f e == k)).length ≤ 1 := by
  induction l with
  | nil => simp
  | cons a rest ih =>
    rw [List.map_cons, List.nodup_cons] at hn
    rw [List.filter_cons]
    cases h : (f a == k) with
    | false =>
      rw [if_neg (by simp)]
      exact ih hn.2
    | true =>
      rw [if_pos (by simp)]
      have hfk : f a = k := by simpa using h
      have hnil : rest.filter (fun e => f e == k) = [] := by
        rw [List.filter_eq_nil_iff]
        intro e he hc
        have : f e = f a := by
          rw [hfk]
          simpa using hc
        exact hn.1 (this ▸ List.mem_map.mpr ⟨e, he, rfl⟩)
      rw [List.length_cons, hnil]
      simp

theorem find?_congr_perm {α : Type} (p : α → Bool) (l l' : List α)
    (h : l.Perm l') (hl : (l.filter p).length ≤ 1) :
    l.find? p = l'.find? p := by
  rw [find?_eq_head?_filter, find?_eq_head?_filter,
    perm_eq_of_length_le_one _ _ (h.filter p) hl]

/-! ## Structure of the prefecture pipeline -/

theorem applyPatient_patients (p : Patient) (e : PrefectureEntry) :
    (applyPatient p e).patients = e.patients ++ [p] := by
  unfold applyPatient
  simp only [apply_ite (fun v : PrefectureEntry => v.patients), ite_self]

theorem applyPatient_confirmed (p : Patient) (e : PrefectureEntry) :
    (applyPatient p e).confirmed =
      (if p.confirmedPatient then e.confirmed + 1 else e.confirmed) := by
  unfold applyPatient
  simp only [apply_ite (fun v : PrefectureEntry => v.confirmed), ite_self]

theorem applyPatient_deaths (p : Patient) (e : PrefectureEntry) :
    (applyPatient p e).deaths =
      (if p.patientStatus == "Deceased" then e.deaths + 1 else e.deaths) := by
  unfold applyPatient
  simp only [apply_ite (fun v : PrefectureEntry => v.deaths), ite_self]

theorem applyPatient_daily (p : Patient) (e : PrefectureEntry) :
    (applyPatient p e).dailyConfirmedCount = e.dailyConfirmedCount ∧
    (applyPatient p e).dailyConfirmedStartDate = e.dailyConfirmedStartDate ∧
    (applyPatient p e).newlyConfirmed = e.newlyConfirmed := by
  unfold applyPatient
  refine ⟨?_, ?_, ?_⟩
  · simp only [apply_ite
      (fun v : PrefectureEntry => v.dailyConfirmedCount), ite_self]
  · simp only [apply_ite
      (fun v : PrefectureEntry => v.dailyConfirmedStartDate), ite_self]
  · simp only [apply_ite
      (fun v : PrefectureEntry => v.newlyConfirmed), ite_self]

theorem prefGroupStep_keys_nodup (acc : List (String × PrefectureEntry))
    (p : Patient) (h : (acc.map Prod.fst).Nodup) :
    ((prefGroupStep acc p).map Prod.fst).Nodup := by
  unfold prefGroupStep
  dsimp only
  rw [modifyAssoc_keys]
  by_cases hl : (acc.lookup p.detectedPrefecture).isNone
  · rw [if_pos hl, List.map_append]
    have hd : p.detectedPrefecture ∉ acc.map Prod.fst := by
      rw [← lookup_none_iff]
      exact Option.isNone_iff_eq_none.mp hl
    simp only [List.map_cons, List.map_nil]
    rw [List.nodup_append]
    refine ⟨h, List.nodup_singleton _, ?_⟩
    intro a ha had
    rw [List.mem_singleton] at had
    subst had
    exact hd ha
  · rw [if_neg hl]
    exact h

theorem prefectureGroups_keys_nodup (patients : List Patient) :
    ((prefectureGroups patients).map Prod.fst).Nodup := by
  unfold prefectureGroups
  have main : ∀ (l : List Patient) (acc : List (String × PrefectureEntry)),
      (acc.map Prod.fst).Nodup →
      ((l.foldl prefGroupStep acc).map Prod.fst).Nodup := by
    intro l
    induction l with
    | nil => exact fun acc h => h
    | cons p rest ih =>
      intro acc h
      rw [List.foldl_cons]
      exact ih _ (prefGroupStep_keys_nodup acc p h)
  exact main patients [] (by simp)

theorem addDailyStatsAll_keys (acc : List (String × PrefectureEntry))
    (lastDay : Nat) :
    (addDailyStatsAll acc lastDay).map Prod.fst = acc.map Prod.fst := by
  unfold addDailyStatsAll
  rw [List.map_map]
  rfl

theorem mergeManualPrefecture_keys (acc : List (String × PrefectureEntry))
    (rows : List ManualPrefectureRow) :
    (mergeManualPrefecture acc rows).map Prod.fst = acc.map Prod.fst := by
  unfold mergeManualPrefecture
  induction rows generalizing acc with
  | nil => rfl
  | cons r rest ih =>
    rw [List.foldl_cons, ih]
    unfold mergeManualPrefStep
    by_cases h : (acc.lookup r.prefecture).isSome
    · rw [if_pos h, modifyAssoc_keys]
    · rw [if_neg h]

theorem stripPatients_keys (acc : List (String × PrefectureEntry)) :
    (stripPatients acc).map Prod.fst = acc.map Prod.fst := by
  unfold stripPatients
  rw [List.map_map]
  rfl

/-- The confirmed counter stored for a region key (0 when absent). -/
def lookupConfirmed (acc : List (String × PrefectureEntry)) (k : String) :
    Nat :=
  ((acc.lookup k).map (fun v => v.confirmed)).getD 0

/-- The deaths counter stored for a region key (0 when absent). -/
def lookupDeaths (acc : List (String × PrefectureEntry)) (k : String) :
    Int :=
  ((acc.lookup k).map (fun v => v.deaths)).getD 0

/-- The case list stored for a region key ([] when absent). -/
def lookupPatients (acc : List (String × PrefectureEntry)) (k : String) :
    List Patient :=
  ((acc.lookup k).map (fun v => v.patients)).getD []

theorem prefGroupStep_lookup_self (acc : List (String × PrefectureEntry))
    (p : Patient) :
    (prefGroupStep acc p).lookup p.detectedPrefecture =
      some (applyPatient p
        ((acc.lookup p.detectedPrefecture).getD {})) := by
  unfold prefGroupStep
  dsimp only
  by_cases hl : (acc.lookup p.detectedPrefecture).isNone
  · have hnone : acc.lookup p.detectedPrefecture = none :=
      Option.isNone_iff_eq_none.mp hl
    rw [if_pos hl, lookup_modifyAssoc_self, lookup_append, hnone]
    simp [List.lookup_cons]
  · rw [if_neg hl, lookup_modifyAssoc_self]
    cases h : acc.lookup p.detectedPrefecture with
    | none => rw [h] at hl; exact absurd rfl hl
    | some v => simp

theorem prefGroupStep_lookup_ne (acc : List (String × PrefectureEntry))
    (p : Patient) (k : String) (h : k ≠ p.detectedPrefecture) :
    (prefGroupStep acc p).lookup k = acc.lookup k := by
  unfold prefGroupStep
  dsimp only
  rw [lookup_modifyAssoc_ne _ _ _ _ h]
  by_cases hl : (acc.lookup p.detectedPrefecture).isNone
  · rw [if_pos hl, lookup_append]
    cases hk : acc.lookup k with
    | some v => rfl
    | none =>
      have hb : (k == p.detectedPrefecture) = false := by simpa using h
      rw [List.lookup_cons, hb]
      rfl
  · rw [if_neg hl]

theorem prefectureGroups_append_one (pts : List Patient) (p : Patient) :
    prefectureGroups (pts ++ [p]) =
      prefGroupStep (prefectureGroups pts) p := by
  unfold prefectureGroups
  rw [List.foldl_append]
  rfl

theorem prefGroupStep_lookupConfirmed (acc : List (String × PrefectureEntry))
    (p : Patient) :
    lookupConfirmed (prefGroupStep acc p) p.detectedPrefecture =
      lookupConfirmed acc p.detectedPrefecture +
        (if p.confirmedPatient then 1 else 0) := by
  unfold lookupConfirmed
  rw [prefGroupStep_lookup_self]
  cases h : acc.lookup p.detectedPrefecture with
  | none =>
    by_cases hc : p.confirmedPatient <;>
      simp [h, applyPatient_confirmed, hc]
  | some v =>
    by_cases hc : p.confirmedPatient <;>
      simp [h, applyPatient_confirmed, hc]

theorem prefGroupStep_lookupDeaths (acc : List (String × PrefectureEntry))
    (p : Patient) :
    lookupDeaths (prefGroupStep acc p) p.detectedPrefecture =
      lookupDeaths acc p.detectedPrefecture +
        (if p.patientStatus == "Deceased" then 1 else 0) := by
  unfold lookupDeaths
  rw [prefGroupStep_lookup_self]
  cases h : acc.lookup p.detectedPrefecture with
  | none =>
    by_cases hc : (p.patientStatus == "Deceased") = true <;>
      simp [h, applyPatient_deaths, hc]
  | some v =>
    by_cases hc : (p.patientStatus == "Deceased") = true <;>
      simp [h, applyPatient_deaths, hc]

theorem prefGroupStep_lookupPatients (acc : List (String × PrefectureEntry))
    (p : Patient) (k : String) :
    lookupPatients (prefGroupStep acc p) k =
      lookupPatients acc k ++
        (if p.detectedPrefecture == k then [p] else []) := by
  by_cases hk : k = p.detectedPrefecture
  · subst hk
    unfold lookupPatients
    rw [prefGroupStep_lookup_self]
    have hb : (p.detectedPrefecture == p.detectedPrefecture) = true := by simp
    rw [hb]
    cases h : acc.lookup p.detectedPrefecture with
    | none => simp [h, applyPatient_patients]
    | some v => simp [h, applyPatient_patients]
  · unfold lookupPatients
    rw [prefGroupStep_lookup_ne _ _ _ hk]
    have hb : (p.detectedPrefecture == k) = false := by
      simpa using fun hc => hk hc.symm
    rw [hb]
    simp

theorem prefectureGroups_lookupPatients (patients : List Patient)
    (k : String) :
    lookupPatients (prefectureGroups patients) k =
      patients.filter (fun p => p.detectedPrefecture == k) := by
  have main : ∀ (l : List Patient) (acc : List (String × PrefectureEntry)),
      lookupPatients (l.foldl prefGroupStep acc) k =
        lookupPatients acc k ++
          l.filter (fun p => p.detectedPrefecture == k) := by
    intro l
    induction l with
    | nil =>
      intro acc
      simp
    | cons p rest ih =>
      intro acc
      rw [List.foldl_cons, ih, prefGroupStep_lookupPatients,
        List.filter_cons]
      by_cases hpk : (p.detectedPrefecture == k) = true
      · rw [if_pos hpk, if_pos hpk, List.append_assoc,
          List.singleton_append]
      · rw [if_neg hpk, if_neg hpk, List.append_nil]
  have hmain := main patients []
  unfold prefectureGroups
  rw [hmain]
  rfl

/-- Region accumulator entries never carry daily-series fields; those are
attached later by `addDailyStats`. -/
theorem prefectureGroups_daily_none (patients : List Patient) :
    ∀ kv ∈ prefectureGroups patients,
      kv.2.dailyConfirmedCount = none ∧
      kv.2.dailyConfirmedStartDate = none ∧
      kv.2.newlyConfirmed = none := by
  have main : ∀ (l : List Patient) (acc : List (String × PrefectureEntry)),
      (∀ kv ∈ acc, kv.2.dailyConfirmedCount = none ∧
        kv.2.dailyConfirmedStartDate = none ∧ kv.2.newlyConfirmed = none) →
      ∀ kv ∈ l.foldl prefGroupStep acc,
        kv.2.dailyConfirmedCount = none ∧
        kv.2.dailyConfirmedStartDate = none ∧
        kv.2.newlyConfirmed = none := by
    intro l
    induction l with
    | nil => exact fun acc h => h
    | cons p rest ih =>
      intro acc hacc
      rw [List.foldl_cons]
      apply ih
      intro kv hkv
      unfold prefGroupStep modifyAssoc at hkv
      obtain ⟨kv0, hkv0, hmap⟩ := List.mem_map.mp hkv
      have hkv0mem : kv0 ∈ acc ∨ kv0 = ((p.detectedPrefecture, {}) :
          String × PrefectureEntry) := by
        by_cases hl : (acc.lookup p.detectedPrefecture).isNone
        · rw [if_pos hl] at hkv0
          rcases List.mem_append.mp hkv0 with hm | hm
          · exact Or.inl hm
          · exact Or.inr (by simpa using hm)
        · rw [if_neg hl] at hkv0
          exact Or.inl hkv0
      have hbase : kv0.2.dailyConfirmedCount = none ∧
          kv0.2.dailyConfirmedStartDate = none ∧
          kv0.2.newlyConfirmed = none := by
        rcases hkv0mem with hm | hm
        · exact hacc kv0 hm
        · rw [hm]
          exact ⟨rfl, rfl, rfl⟩
      by_cases hmatch : (kv0.1 == p.detectedPrefecture) = true
      · rw [if_pos hmatch] at hmap
        rw [← hmap]
        dsimp only
        obtain ⟨h1, h2, h3⟩ := applyPatient_daily p kv0.2
        rw [h1, h2, h3]
        exact hbase
      · rw [if_neg hmatch] at hmap
        rw [← hmap]
        exact hbase
  exact main patients [] (by simp)

theorem addDailyStats_confirmed (t : Nat) (e : PrefectureEntry) :
    (addDailyStats t e).confirmed = e.confirmed := by
  unfold addDailyStats
  dsimp only
  split
  next => rfl
  next => rfl

theorem addDailyStats_deaths (t : Nat) (e : PrefectureEntry) :
    (addDailyStats t e).deaths = e.deaths := by
  unfold addDailyStats
  dsimp only
  split
  next => rfl
  next => rfl

/-- The projection of the manual-prefecture merge: any field the manual
rows do not write survives the merge (pointwise on lookups). -/
theorem mergeManualPrefecture_lookup_proj {γ : Type}
    (f : PrefectureEntry → γ)
    (hf : ∀ (row : ManualPrefectureRow) (e : PrefectureEntry),
      f { e with recovered := some (safeParseInt row.recovered),
                 deaths := safeParseInt row.deaths,
                 name_ja := some row.prefectureJa } = f e)
    (rows : List ManualPrefectureRow)
    (acc : List (String × PrefectureEntry)) (k : String) :
    ((mergeManualPrefecture acc rows).lookup k).map f =
      (acc.lookup k).map f := by
  unfold mergeManualPrefecture
  induction rows generalizing acc with
  | nil => rfl
  | cons r rest ih =>
    rw [List.foldl_cons, ih]
    unfold mergeManualPrefStep
    by_cases hs : (acc.lookup r.prefecture).isSome
    · rw [if_pos hs]
      by_cases hk : k = r.prefecture
      · subst hk
        rw [lookup_modifyAssoc_self]
        cases h : acc.lookup r.prefecture with
        | none => rfl
        | some v => simp [hf]
      · rw [lookup_modifyAssoc_ne _ _ _ _ hk]
    · rw [if_neg hs]

/-- `a == b` is symmetric under lawful `BEq`. -/
theorem beq_symm_eq {α : Type} [BEq α] [LawfulBEq α] (a b : α) :
    (a == b) = (b == a) := by
  by_cases h : a = b
  · subst h
    rfl
  · have h1 : (a == b) = false := by simpa using h
    have h2 : (b == a) = false := by simpa using fun hc => h hc.symm
    rw [h1, h2]

/-- `find?` on the key, mapped to the name-attached entry, is the lookup
of the key. -/
theorem find?_attach_eq_lookup (l : List (String × PrefectureEntry))
    (k : String) :
    (l.find? (fun kv => kv.1 == k)).map
        (fun kv => { kv.2 with name := kv.1 }) =
      (l.lookup k).map (fun v => { v with name := k }) := by
  induction l with
  | nil => rfl
  | cons kv rest ih =>
    obtain ⟨a, b⟩ := kv
    rw [List.find?_cons, List.lookup_cons]
    dsimp only
    by_cases h : a = k
    · have h1 : (a == k) = true := by simpa using h
      have h2 : (k == a) = true := by simpa using h.symm
      rw [h1, h2, h]
      rfl
    · have h1 : (a == k) = false := by simpa using h
      have h2 : (k == a) = false := by simpa using fun hc => h hc.symm
      rw [h1, h2]
      exact ih

theorem stripPatients_lookup (acc : List (String × PrefectureEntry))
    (k : String) :
    (stripPatients acc).lookup k =
      (acc.lookup k).map (fun v => { v with patients := [] }) := by
  unfold stripPatients
  induction acc with
  | nil => rfl
  | cons kv rest ih =>
    obtain ⟨a, b⟩ := kv
    rw [List.map_cons, List.lookup_cons, List.lookup_cons]
    cases h : (k == a) with
    | true => rfl
    | false => exact ih

/-- The region named `k` in the final output, with its `confirmed` count
(0 when the region is absent). -/
def regionConfirmed (out : List PrefectureEntry) (k : String) : Nat :=
  ((out.find? (fun e => e.name == k)).map (fun e => e.confirmed)).getD 0

/-- Reduce a `find?` by name on the sorted output to a `lookup` on the
pre-sort association list. -/
theorem generatePrefectureSummary_find? (patients : List Patient)
    (rows : List ManualPrefectureRow) (lastDay : Nat) (k : String) :
    (generatePrefectureSummary patients rows lastDay).find?
        (fun e => e.name == k) =
      ((stripPatients (mergeManualPrefecture (addDailyStatsAll
        (prefectureGroups patients) lastDay) rows)).lookup k).map
        (fun v => { v with name := k }) := by
  unfold generatePrefectureSummary
  have hkeys : (stripPatients (mergeManualPrefecture (addDailyStatsAll
      (prefectureGroups patients) lastDay) rows)).map Prod.fst =
      (prefectureGroups patients).map Prod.fst := by
    rw [stripPatients_keys, mergeManualPrefecture_keys, addDailyStatsAll_keys]
  have hperm : ((List.insertionSort byConfirmed
      (stripPatients (mergeManualPrefecture (addDailyStatsAll
        (prefectureGroups patients) lastDay) rows))).reverse.map
      (fun kv => { kv.2 with name := kv.1 })).Perm
      ((stripPatients (mergeManualPrefecture (addDailyStatsAll
        (prefectureGroups patients) lastDay) rows)).map
        (fun kv => { kv.2 with name := kv.1 })) :=
    ((List.reverse_perm _).trans
      (List.perm_insertionSort byConfirmed _)).map _
  have hnames : (((List.insertionSort byConfirmed
      (stripPatients (mergeManualPrefecture (addDailyStatsAll
        (prefectureGroups patients) lastDay) rows))).reverse.map
      (fun kv => { kv.2 with name := kv.1 })).map
      (fun e => e.name)).Nodup := by
    refine (hperm.map (fun e => e.name)).nodup_iff.mpr ?_
    rw [List.map_map]
    have heq : ((fun e : PrefectureEntry => e.name) ∘
        (fun kv : String × PrefectureEntry =>
          { kv.2 with name := kv.1 })) = Prod.fst := rfl
    rw [heq, hkeys]
    exact prefectureGroups_keys_nodup patients
  rw [find?_congr_perm _ _ _ hperm
    (filter_length_le_one (fun e => e.name) _ k hnames)]
  rw [List.find?_map]
  have hpred : ((fun e : PrefectureEntry => e.name == k) ∘
      (fun kv : String × PrefectureEntry => { kv.2 with name := kv.1 })) =
      (fun kv : String × PrefectureEntry => kv.1 == k) := rfl
  rw [hpred, find?_attach_eq_lookup]

/-- `regionConfirmed` on the final output reads the grouping
accumulator's confirmed counter: the daily-stats, manual-merge, strip and
sort stages all preserve it. -/
theorem regionConfirmed_eq (patients : List Patient)
    (rows : List ManualPrefectureRow) (lastDay : Nat) (k : String) :
    regionConfirmed (generatePrefectureSummary patients rows lastDay) k =
      lookupConfirmed (prefectureGroups patients) k := by
  unfold regionConfirmed lookupConfirmed
  rw [generatePrefectureSummary_find?, Option.map_map]
  have h1 : ((fun e : PrefectureEntry => e.confirmed) ∘
      (fun v : PrefectureEntry => { v with name := k })) =
      (fun v : PrefectureEntry => v.confirmed) := rfl
  rw [h1, stripPatients_lookup, Option.map_map]
  have h2 : ((fun v : PrefectureEntry => v.confirmed) ∘
      (fun v : PrefectureEntry => { v with patients := [] })) =
      (fun v : PrefectureEntry => v.confirmed) := rfl
  rw [h2]
  rw [mergeManualPrefecture_lookup_proj
    (fun v : PrefectureEntry => v.confirmed) (fun row e => rfl)]
  unfold addDailyStatsAll
  rw [lookup_mapSnd, Option.map_map]
  have h3 : ((fun v : PrefectureEntry => v.confirmed) ∘
      addDailyStats lastDay) = (fun v : PrefectureEntry => v.confirmed) := by
    funext e
    exact addDailyStats_confirmed lastDay e
  rw [h3]

/-- Claim C7: the region summary is sorted by `confirmed` descending with
the region key attached as `name`: the multiset of (name, confirmed)
pairs is exactly that of the pre-sort accumulator, the confirmed counts
are pairwise non-increasing, and an accumulator with counts [5, 20, 1]
yields the output order [20, 5, 1] with the matching names. -/
theorem claim_C7_regionOrdering (patients : List Patient)
    (rows : List ManualPrefectureRow) (lastDay : Nat) :
    ((generatePrefectureSummary patients rows lastDay).map
      (fun e => e.confirmed)).Pairwise (fun a b => b ≤ a) ∧
    ((generatePrefectureSummary patients rows lastDay).map
      (fun e => (e.name, e.confirmed))).Perm
      ((stripPatients (mergeManualPrefecture (addDailyStatsAll
        (prefectureGroups patients) lastDay) rows)).map
        (fun kv => (kv.1, kv.2.confirmed))) ∧
    (∀ a b c : String,
      (stripPatients (mergeManualPrefecture (addDailyStatsAll
        (prefectureGroups patients) lastDay) rows)).map
        (fun kv => (kv.1, kv.2.confirmed)) = [(a, 5), (b, 20), (c, 1)] →
      (generatePrefectureSummary patients rows lastDay).map
        (fun e => (e.name, e.confirmed)) = [(b, 20), (a, 5), (c, 1)]) := by
  haveI : IsTotal (String × PrefectureEntry) byConfirmed :=
    ⟨fun a b => Nat.le_total a.2.confirmed b.2.confirmed⟩
  haveI : IsTrans (String × PrefectureEntry) byConfirmed :=
    ⟨fun a b c hab hbc => Nat.le_trans hab hbc⟩
  refine ⟨?_, ?_, ?_⟩
  · unfold generatePrefectureSummary
    rw [List.map_map]
    have hcomp : ((fun e : PrefectureEntry => e.confirmed) ∘
        (fun kv : String × PrefectureEntry =>
          { kv.2 with name := kv.1 })) =
        (fun kv : String × PrefectureEntry => kv.2.confirmed) := rfl
    rw [hcomp, List.pairwise_map, List.pairwise_reverse]
    exact List.sorted_insertionSort byConfirmed _
  · unfold generatePrefectureSummary
    rw [List.map_map]
    have hcomp : ((fun e : PrefectureEntry => (e.name, e.confirmed)) ∘
        (fun kv : String × PrefectureEntry =>
          { kv.2 with name := kv.1 })) =
        (fun kv : String × PrefectureEntry => (kv.1, kv.2.confirmed)) := rfl
    rw [hcomp]
    exact ((List.reverse_perm _).trans
      (List.perm_insertionSort byConfirmed _)).map _
  · intro a b c hmap
    rcases hp : (stripPatients (mergeManualPrefecture (addDailyStatsAll
        (prefectureGroups patients) lastDay) rows)) with
      _ | ⟨u, _ | ⟨v, _ | ⟨w, _ | ⟨z, tl⟩⟩⟩⟩
    · rw [hp] at hmap
      simp at hmap
    · rw [hp] at hmap
      simp at hmap
    · rw [hp] at hmap
      simp at hmap
    · rw [hp] at hmap
      simp only [List.map_cons, List.map_nil, List.cons.injEq,
        Prod.mk.injEq, and_true] at hmap
      obtain ⟨⟨hu1, hu2⟩, ⟨hv1, hv2⟩, hw1, hw2⟩ := hmap
      have hvw : ¬ byConfirmed v w := by
        unfold byConfirmed
        rw [hv2, hw2]
        omega
      have huw : ¬ byConfirmed u w := by
        unfold byConfirmed
        rw [hu2, hw2]
        omega
      have huv : byConfirmed u v := by
        unfold byConfirmed
        rw [hu2, hv2]
        omega
      have h_vw : List.orderedInsert byConfirmed v [w] = [w, v] := by
        simp only [List.orderedInsert]
        rw [if_neg hvw]
      have h_uwv : List.orderedInsert byConfirmed u [w, v] = [w, u, v] := by
        simp only [List.orderedInsert]
        rw [if_neg huw, if_pos huv]
      have hsort : List.insertionSort byConfirmed [u, v, w] = [w, u, v] := by
        simp only [List.insertionSort]
        rw [show List.orderedInsert byConfirmed w [] = [w] from rfl, h_vw,
          h_uwv]
      unfold generatePrefectureSummary
      rw [hp, hsort]
      rw [show ([w, u, v] : List (String × PrefectureEntry)).reverse =
        [v, u, w] from by rfl]
      show [(v.1, v.2.confirmed), (u.1, u.2.confirmed),
        (w.1, w.2.confirmed)] = [(b, 20), (a, 5), (c, 1)]
      rw [hu1, hu2, hv1, hv2, hw1, hw2]
    · rw [hp] at hmap
      simp at hmap

/-- Records giving confirmed counts 5 (Aichi), 20 (Tokyo), 1 (Osaka), in
that accumulator order. -/
def regionPatients : List Patient :=
  List.replicate 5
    ({ detectedPrefecture := "Aichi", confirmedPatient := true } : Patient) ++
  List.replicate 20
    ({ detectedPrefecture := "Tokyo", confirmedPatient := true } : Patient) ++
  [{ detectedPrefecture := "Osaka", confirmedPatient := true }]

/-- Witness for C7: counts [5, 20, 1] come out ordered [20, 5, 1] with
the region keys as names. -/
theorem claim_C7_witness :
    (stripPatients (mergeManualPrefecture (addDailyStatsAll
      (prefectureGroups regionPatients) day20200108) [])).map
      (fun kv => (kv.1, kv.2.confirmed)) =
      [("Aichi", 5), ("Tokyo", 20), ("Osaka", 1)] ∧
    (generatePrefectureSummary regionPatients [] day20200108).map
      (fun e => (e.name, e.confirmed)) =
      [("Tokyo", 20), ("Aichi", 5), ("Osaka", 1)] :=
  ⟨by decide,
   (claim_C7_regionOrdering regionPatients [] day20200108).2.2
     "Aichi" "Tokyo" "Osaka" (by decide)⟩

theorem mem_of_lookup {α β : Type} [BEq α] [LawfulBEq α]
    (l : List (α × β)) (k : α) (v : β) (h : l.lookup k = some v) :
    (k, v) ∈ l := by
  induction l with
  | nil => exact absurd h (by simp [List.lookup])
  | cons kv rest ih =>
    obtain ⟨a, b⟩ := kv
    rw [List.lookup_cons] at h
    cases hk : (k == a) with
    | true =>
      rw [hk] at h
      injection h with h
      have : k = a := by simpa using hk
      subst this
      subst h
      exact List.mem_cons_self _ _
    | false =>
      rw [hk] at h
      exact List.mem_cons.mpr (Or.inr (ih h))

theorem addDailyStats_daily (t : Nat) (e : PrefectureEntry) :
    (day20200108 ≤ t →
      (addDailyStats t e).dailyConfirmedCount =
        some (generateDailyStatsForPrefecture e.patients day20200108 t) ∧
      (addDailyStats t e).dailyConfirmedStartDate = some day20200108 ∧
      (addDailyStats t e).newlyConfirmed =
        some ((generateDailyStatsForPrefecture e.patients day20200108
          t).getLastD 0)) ∧
    (t < day20200108 →
      (addDailyStats t e).dailyConfirmedCount = e.dailyConfirmedCount ∧
      (addDailyStats t e).dailyConfirmedStartDate =
        e.dailyConfirmedStartDate ∧
      (addDailyStats t e).newlyConfirmed = e.newlyConfirmed) := by
  have hlen : (generateDailyStatsForPrefecture e.patients day20200108
      t).length = t + 1 - day20200108 := by
    unfold generateDailyStatsForPrefecture
    rw [List.length_map, List.length_range']
  constructor
  · intro ht
    unfold addDailyStats
    dsimp only
    rw [if_pos (by rw [hlen]; omega)]
    exact ⟨rfl, rfl, rfl⟩
  · intro ht
    unfold addDailyStats
    dsimp only
    rw [if_neg (by rw [hlen]; omega)]
    exact ⟨rfl, rfl, rfl⟩

/-- Claim C8: `dailyConfirmedCount` has one entry per day from the fixed
epoch 2020-01-08 through the clock date inclusive, each entry counting the
region's records announced that day with `confirmedPatient` set;
`newlyConfirmed` is the series' last element and
`dailyConfirmedStartDate` the epoch; all three fields are omitted when the
series is empty (clock before epoch). -/
theorem claim_C8_dailySeries (patients : List Patient)
    (rows : List ManualPrefectureRow) (firstDay lastDay : Nat) :
    (generateDailyStatsForPrefecture patients firstDay lastDay).length =
      lastDay + 1 - firstDay ∧
    (∀ i (hi : i < (generateDailyStatsForPrefecture patients firstDay
        lastDay).length),
      (generateDailyStatsForPrefecture patients firstDay lastDay)[i] =
        (patients.filter (fun o => o.dateAnnounced == some (firstDay + i)
          && o.confirmedPatient)).length) ∧
    (∀ e ∈ generatePrefectureSummary patients rows lastDay,
      (day20200108 ≤ lastDay →
        e.dailyConfirmedCount = some (generateDailyStatsForPrefecture
          (patients.filter (fun p => p.detectedPrefecture == e.name))
          day20200108 lastDay) ∧
        e.dailyConfirmedStartDate = some day20200108 ∧
        (∀ l, e.dailyConfirmedCount = some l →
          l.length = lastDay + 1 - day20200108 ∧ l ≠ [] ∧
          e.newlyConfirmed = some (l.getLastD 0))) ∧
      (lastDay < day20200108 →
        e.dailyConfirmedCount = none ∧
        e.dailyConfirmedStartDate = none ∧
        e.newlyConfirmed = none)) := by
  refine ⟨?_, ?_, ?_⟩
  · unfold generateDailyStatsForPrefecture
    rw [List.length_map, List.length_range']
  · intro i hi
    unfold generateDailyStatsForPrefecture
    rw [List.getElem_map, List.getElem_range', Nat.one_mul]
  · intro e he
    unfold generatePrefectureSummary at he
    obtain ⟨kv, hkvmem, hkv⟩ := List.mem_map.mp he
    rw [List.mem_reverse] at hkvmem
    have hkv3 : kv ∈ stripPatients (mergeManualPrefecture
        (addDailyStatsAll (prefectureGroups patients) lastDay) rows) :=
      (List.perm_insertionSort byConfirmed _).subset hkvmem
    have hkeys : ((stripPatients (mergeManualPrefecture (addDailyStatsAll
        (prefectureGroups patients) lastDay) rows)).map Prod.fst).Nodup := by
      rw [stripPatients_keys, mergeManualPrefecture_keys,
        addDailyStatsAll_keys]
      exact prefectureGroups_keys_nodup patients
    have hlk3 := lookup_of_mem_nodup _ kv hkv3 hkeys
    rw [stripPatients_lookup] at hlk3
    cases hlk2 : (mergeManualPrefecture (addDailyStatsAll
        (prefectureGroups patients) lastDay) rows).lookup kv.1 with
    | none =>
      rw [hlk2] at hlk3
      exact absurd hlk3 (by simp)
    | some v2 =>
      rw [hlk2] at hlk3
      have hkv2 : kv.2 = { v2 with patients := [] } := by
        injection hlk3 with hlk3
        exact hlk3.symm
      have hproj := mergeManualPrefecture_lookup_proj
        (fun v : PrefectureEntry => (v.dailyConfirmedCount,
          v.dailyConfirmedStartDate, v.newlyConfirmed))
        (fun row e => rfl) rows
        (addDailyStatsAll (prefectureGroups patients) lastDay) kv.1
      rw [hlk2] at hproj
      cases hlk1 : (addDailyStatsAll (prefectureGroups patients)
          lastDay).lookup kv.1 with
      | none =>
        rw [hlk1] at hproj
        exact absurd hproj.symm (by simp)
      | some v1 =>
        rw [hlk1] at hproj
        have hdsame : v2.dailyConfirmedCount = v1.dailyConfirmedCount ∧
            v2.dailyConfirmedStartDate = v1.dailyConfirmedStartDate ∧
            v2.newlyConfirmed = v1.newlyConfirmed := by
          have hpair : (v2.dailyConfirmedCount, v2.dailyConfirmedStartDate,
              v2.newlyConfirmed) = (v1.dailyConfirmedCount,
              v1.dailyConfirmedStartDate, v1.newlyConfirmed) := by
            simpa using hproj
          simp only [Prod.mk.injEq] at hpair
          exact ⟨hpair.1, hpair.2.1, hpair.2.2⟩
        unfold addDailyStatsAll at hlk1
        rw [lookup_mapSnd] at hlk1
        cases hlk0 : (prefectureGroups patients).lookup kv.1 with
        | none =>
          rw [hlk0] at hlk1
          exact absurd hlk1 (by simp)
        | some v0 =>
          rw [hlk0] at hlk1
          have hv1 : v1 = addDailyStats lastDay v0 := by
            injection hlk1 with hlk1
            exact hlk1.symm
          have hv0mem : (kv.1, v0) ∈ prefectureGroups patients :=
            mem_of_lookup _ _ _ hlk0
          have hv0daily := prefectureGroups_daily_none patients _ hv0mem
          have hv0pat : v0.patients =
              patients.filter (fun p => p.detectedPrefecture == kv.1) := by
            have := prefectureGroups_lookupPatients patients kv.1
            unfold lookupPatients at this
            rw [hlk0] at this
            simpa using this
          have hename : e.name = kv.1 := by
            rw [← hkv]
          have hedaily : e.dailyConfirmedCount = v1.dailyConfirmedCount ∧
              e.dailyConfirmedStartDate = v1.dailyConfirmedStartDate ∧
              e.newlyConfirmed = v1.newlyConfirmed := by
            rw [← hkv]
            refine ⟨?_, ?_, ?_⟩
            · show kv.2.dailyConfirmedCount = _
              rw [hkv2]
              exact hdsame.1
            · show kv.2.dailyConfirmedStartDate = _
              rw [hkv2]
              exact hdsame.2.1
            · show kv.2.newlyConfirmed = _
              rw [hkv2]
              exact hdsame.2.2
          obtain ⟨hup, hdown⟩ := addDailyStats_daily lastDay v0
          have hlenD : (generateDailyStatsForPrefecture v0.patients
              day20200108 lastDay).length = lastDay + 1 - day20200108 := by
            unfold generateDailyStatsForPrefecture
            rw [List.length_map, List.length_range']
          constructor
          · intro ht
            obtain ⟨hc, hs, hn⟩ := hup ht
            rw [hv1] at hedaily
            refine ⟨?_, ?_, ?_⟩
            · rw [hedaily.1, hc, hv0pat, hename]
            · rw [hedaily.2.1, hs]
            · intro l hl
              rw [hedaily.1, hc] at hl
              injection hl with hl
              subst hl
              refine ⟨hlenD, ?_, ?_⟩
              · intro hnil
                rw [hnil] at hlenD
                have h0 : (0 : Nat) = lastDay + 1 - day20200108 := hlenD
                unfold day20200108 at h0 ht
                omega
              · rw [hedaily.2.2, hn]
          · intro ht
            obtain ⟨hc, hs, hn⟩ := hdown ht
            rw [hv1] at hedaily
            refine ⟨?_, ?_, ?_⟩
            · rw [hedaily.1, hc]
              exact hv0daily.1
            · rw [hedaily.2.1, hs]
              exact hv0daily.2.1
            · rw [hedaily.2.2, hn]
              exact hv0daily.2.2

/-- Three Tokyo records: day 7 (the epoch), day 8, and one with no
announced date. -/
def c8patients : List Patient :=
  [{ detectedPrefecture := "Tokyo", confirmedPatient := true,
     dateAnnounced := some day20200108 },
   { detectedPrefecture := "Tokyo", confirmedPatient := true,
     dateAnnounced := some (day20200108 + 1) },
   { detectedPrefecture := "Tokyo", confirmedPatient := true }]

/-- The single region entry produced for `c8patients` with the clock two
days after the epoch. -/
def c8entry : PrefectureEntry :=
  (generatePrefectureSummary c8patients [] (day20200108 + 2)).headD {}

/-- Witness for C8: a three-day clock window yields a length-3 series
[1, 1, 0], start date at the epoch, and `newlyConfirmed` = its last
element 0. -/
theorem claim_C8_witness :
    (generateDailyStatsForPrefecture c8patients day20200108
      (day20200108 + 2)).length = 3 ∧
    c8entry.dailyConfirmedCount = some [1, 1, 0] ∧
    c8entry.dailyConfirmedStartDate = some day20200108 ∧
    c8entry.newlyConfirmed = some 0 := by
  have hmem : c8entry ∈ generatePrefectureSummary c8patients []
      (day20200108 + 2) := by decide
  obtain ⟨hup, -⟩ := (claim_C8_dailySeries c8patients [] day20200108
    (day20200108 + 2)).2.2 c8entry hmem
  obtain ⟨hc, hs, hrest⟩ := hup (by decide)
  have hcval : c8entry.dailyConfirmedCount = some [1, 1, 0] := by
    rw [hc]
    decide
  refine ⟨?_, hcval, hs, ?_⟩
  · rw [(claim_C8_dailySeries c8patients [] day20200108
      (day20200108 + 2)).1]
    decide
  · rw [(hrest [1, 1, 0] hcval).2.2]
    decide

/-- A dated and an undated confirmed Tokyo record. -/
def c10patients : List Patient :=
  [{ detectedPrefecture := "Tokyo", confirmedPatient := true,
     dateAnnounced := some day20200108 },
   { detectedPrefecture := "Tokyo", confirmedPatient := true }]

/-- Claim C10: a record with `confirmedPatient` true but no announced
date is skipped entirely by the daily summary builder, yet still
increments its region's confirmed count in the prefecture summary output
— and, when `Deceased`, the region's deaths counter in the grouping
accumulator; consequently on `c10patients` the region's series sums to 1
while its `confirmed` field is 2. -/
theorem claim_C10_datelessRecords :
    (∀ (l1 l2 : List Patient) (p : Patient) (rows : List ManualDailyRow),
      p.dateAnnounced = none →
      generateDailySummary (l1 ++ p :: l2) rows =
        generateDailySummary (l1 ++ l2) rows) ∧
    (∀ (pts : List Patient) (p : Patient)
        (rows : List ManualPrefectureRow) (lastDay : Nat),
      p.confirmedPatient = true →
      regionConfirmed (generatePrefectureSummary (pts ++ [p]) rows lastDay)
          p.detectedPrefecture =
        regionConfirmed (generatePrefectureSummary pts rows lastDay)
          p.detectedPrefecture + 1) ∧
    (∀ (pts : List Patient) (p : Patient),
      p.patientStatus = "Deceased" →
      lookupDeaths (prefectureGroups (pts ++ [p])) p.detectedPrefecture =
        lookupDeaths (prefectureGroups pts) p.detectedPrefecture + 1) ∧
    ((generatePrefectureSummary c10patients [] day20200108).map
      (fun e => (e.confirmed, e.dailyConfirmedCount)) = [(2, some [1])] ∧
      ([1] : List Nat).sum < 2) := by
  refine ⟨?_, ?_, ?_, by decide, by decide⟩
  · intro l1 l2 p rows hp
    unfold generateDailySummary preForwardFill dailyGroups
    have hstep : List.foldl dailyGroupStep
        (List.foldl dailyGroupStep [] l1) (p :: l2) =
        List.foldl dailyGroupStep (List.foldl dailyGroupStep [] l1) l2 := by
      rw [List.foldl_cons]
      have : dailyGroupStep (List.foldl dailyGroupStep [] l1) p =
          List.foldl dailyGroupStep [] l1 := by
        unfold dailyGroupStep
        rw [hp]
      rw [this]
    rw [List.foldl_append, List.foldl_append, hstep]
  · intro pts p rows lastDay hc
    rw [regionConfirmed_eq, regionConfirmed_eq, prefectureGroups_append_one,
      prefGroupStep_lookupConfirmed, hc]
    simp
  · intro pts p hd
    rw [prefectureGroups_append_one, prefGroupStep_lookupDeaths, hd]
    simp

/-- An undated confirmed Tokyo record (also `Deceased` in the second
sample). -/
def undatedTokyo : Patient :=
  { detectedPrefecture := "Tokyo", confirmedPatient := true }

/-- A deceased Tokyo record. -/
def deceasedTokyo : Patient :=
  { detectedPrefecture := "Tokyo", confirmedPatient := true,
    patientStatus := "Deceased" }

/-- A dated confirmed Tokyo record. -/
def datedTokyo : Patient :=
  { detectedPrefecture := "Tokyo", confirmedPatient := true,
    dateAnnounced := some day20200108 }

/-- Witness for C10 at concrete records. -/
theorem claim_C10_witness :
    generateDailySummary ([datedTokyo] ++ undatedTokyo :: [datedTokyo])
        [] = generateDailySummary ([datedTokyo] ++ [datedTokyo]) [] ∧
    regionConfirmed (generatePrefectureSummary ([datedTokyo] ++
        [undatedTokyo]) [] day20200108) undatedTokyo.detectedPrefecture =
      regionConfirmed (generatePrefectureSummary [datedTokyo] []
        day20200108) undatedTokyo.detectedPrefecture + 1 ∧
    lookupDeaths (prefectureGroups ([datedTokyo] ++ [deceasedTokyo]))
        deceasedTokyo.detectedPrefecture =
      lookupDeaths (prefectureGroups [datedTokyo])
        deceasedTokyo.detectedPrefecture + 1 :=
  ⟨claim_C10_datelessRecords.1 [datedTokyo] [datedTokyo] undatedTokyo []
     rfl,
   claim_C10_datelessRecords.2.1 [datedTokyo] undatedTokyo [] day20200108
     rfl,
   claim_C10_datelessRecords.2.2.1 [datedTokyo] deceasedTokyo rfl⟩

/-! ## Behaviour of safeParseInt -/

theorem isWs_eq_false_of_isDigit (c : Char) (h : c.isDigit = true) :
    isWs c = false := by
  have h1 : c ≠ ' ' := fun hc => by
    rw [hc] at h
    exact absurd h (by decide)
  have h2 : c ≠ '\t' := fun hc => by
    rw [hc] at h
    exact absurd h (by decide)
  have h3 : c ≠ '\n' := fun hc => by
    rw [hc] at h
    exact absurd h (by decide)
  have h4 : c ≠ '\r' := fun hc => by
    rw [hc] at h
    exact absurd h (by decide)
  unfold isWs
  simp [h1, h2, h3, h4]

theorem skipWs_cons_of_not_ws (c : Char) (l : List Char)
    (h : isWs c = false) : skipWs (c :: l) = c :: l := by
  unfold skipWs
  rw [if_neg (by simp [h])]

theorem takeWhile_digits (ds rest : List Char)
    (hds : ∀ c ∈ ds, c.isDigit)
    (hrest : ∀ c, rest.head? = some c → c.isDigit = false) :
    (ds ++ rest).takeWhile Char.isDigit = ds := by
  induction ds with
  | nil =>
    cases rest with
    | nil => rfl
    | cons r t =>
      rw [List.nil_append, List.takeWhile_cons,
        if_neg (by simp [hrest r rfl])]
  | cons c cs ih =>
    rw [List.cons_append, List.takeWhile_cons,
      if_pos (by simp [hds c (List.mem_cons_self c cs)])]
    rw [ih (fun x hx => hds x (List.mem_cons.mpr (Or.inr hx)))]

theorem digit_ne_minus (c : Char) (h : c.isDigit = true) : c ≠ '-' :=
  fun hc => by
    rw [hc] at h
    exact absurd h (by decide)

theorem digit_ne_plus (c : Char) (h : c.isDigit = true) : c ≠ '+' :=
  fun hc => by
    rw [hc] at h
    exact absurd h (by decide)

theorem digit_ne_x (c : Char) (h : c.isDigit = true) : c ≠ 'x' ∧ c ≠ 'X' :=
  ⟨fun hc => by
    rw [hc] at h
    exact absurd h (by decide),
  fun hc => by
    rw [hc] at h
    exact absurd h (by decide)⟩

/-- The digit scan reads exactly a leading run of decimal digits, provided
no `0x` hex prefix applies. -/
theorem jsParseIntDigits_digits (d : Char) (ds rest : List Char)
    (hds : ∀ c ∈ d :: ds, c.isDigit)
    (hrest : ∀ c, rest.head? = some c → c.isDigit = false)
    (hhex : ¬ (d :: ds = ['0'] ∧
      (rest.head? = some 'x' ∨ rest.head? = some 'X'))) :
    jsParseIntDigits ((d :: ds) ++ rest) =
      some (digitsValue 10 (d :: ds)) := by
  have hd : d.isDigit := hds d (List.mem_cons_self d ds)
  have htw : ((d :: ds) ++ rest).takeWhile Char.isDigit = d :: ds :=
    takeWhile_digits (d :: ds) rest hds hrest
  cases ds with
  | nil =>
    cases rest with
    | nil =>
      show (if ([d] : List Char).takeWhile Char.isDigit |>.isEmpty
          then none
          else some (digitsValue 10 (([d] : List Char).takeWhile
            Char.isDigit))) = some (digitsValue 10 [d])
      rw [show (([d] : List Char)).takeWhile Char.isDigit = [d] from htw]
      rfl
    | cons x rest2 =>
      have hcond : ¬ (d = '0' ∧ (x = 'x' ∨ x = 'X')) := by
        rintro ⟨hd0, hx⟩
        refine hhex ⟨by rw [hd0], ?_⟩
        rcases hx with rfl | rfl
        · exact Or.inl rfl
        · exact Or.inr rfl
      show (if d = '0' ∧ (x = 'x' ∨ x = 'X') then _ else _) = _
      rw [if_neg hcond]
      have htw2 : (d :: x :: rest2).takeWhile Char.isDigit = [d] := htw
      show (if ((d :: x :: rest2).takeWhile Char.isDigit).isEmpty
          then none
          else some (digitsValue 10 ((d :: x :: rest2).takeWhile
            Char.isDigit))) = some (digitsValue 10 [d])
      rw [htw2]
      rfl
  | cons d2 ds2 =>
    have hd2 : d2.isDigit := hds d2 (by simp)
    have hcond : ¬ (d = '0' ∧ (d2 = 'x' ∨ d2 = 'X')) := by
      rintro ⟨-, hx | hx⟩
      · exact (digit_ne_x d2 hd2).1 hx
      · exact (digit_ne_x d2 hd2).2 hx
    show (if d = '0' ∧ (d2 = 'x' ∨ d2 = 'X') then _ else _) = _
    rw [if_neg hcond]
    have htw2 : (d :: d2 :: (ds2 ++ rest)).takeWhile Char.isDigit =
        d :: d2 :: ds2 := htw
    show (if ((d :: d2 :: (ds2 ++ rest)).takeWhile Char.isDigit).isEmpty
        then none
        else some (digitsValue 10 ((d :: d2 :: (ds2 ++ rest)).takeWhile
          Char.isDigit))) = some (digitsValue 10 (d :: d2 :: ds2))
    rw [htw2]
    rfl

/-- Claim C9 counterexample: on "0abc" the parser returns 0 even though a
leading integer (namely 0) does parse, so "returns 0 only when no leading
integer can be parsed at all" fails as stated. -/
theorem claim_C9_counterexample :
    safeParseInt (JSValue.vstr "0abc") = 0 ∧
    jsParseInt (jsToString (JSValue.vstr "0abc")) = some 0 := by
  constructor <;> decide

/-- Claim C9 (amended): the defensive parser returns 0 exactly when no
leading integer can be parsed (NaN) or when the parsed leading integer
itself is 0; for any input whose leading characters form a decimal number
(and no `0x` hex prefix applies) it returns that truncated integer
prefix — in particular "12abc" and the number 12.9 both give 12. -/
theorem claim_C9_safeParseInt :
    (∀ v : JSValue, safeParseInt v = 0 ↔
      (jsParseInt (jsToString v) = none ∨
        jsParseInt (jsToString v) = some 0)) ∧
    (∀ (d : Char) (ds rest : List Char),
      (∀ c ∈ d :: ds, c.isDigit) →
      (∀ c, rest.head? = some c → c.isDigit = false) →
      (¬ (d :: ds = ['0'] ∧
        (rest.head? = some 'x' ∨ rest.head? = some 'X'))) →
      safeParseInt (.vstr (String.mk ((d :: ds) ++ rest))) =
        (digitsValue 10 (d :: ds) : Int)) ∧
    safeParseInt (.vstr "12abc") = 12 ∧
    safeParseInt (.vdec 12 "9") = 12 := by
  refine ⟨?_, ?_, by decide, by decide⟩
  · intro v
    unfold safeParseInt
    cases h : jsParseInt (jsToString v) with
    | none => simp
    | some n => simp
  · intro d ds rest hds hrest hhex
    have hd : d.isDigit := hds d (List.mem_cons_self d ds)
    have hjs : jsParseInt (String.mk ((d :: ds) ++ rest)) =
        some ((digitsValue 10 (d :: ds) : Int)) := by
      unfold jsParseInt
      rw [show (String.mk ((d :: ds) ++ rest)).data =
        d :: (ds ++ rest) from rfl]
      rw [skipWs_cons_of_not_ws d _ (isWs_eq_false_of_isDigit d hd)]
      show (if d = '-' then _ else if d = '+' then _ else
        (jsParseIntDigits (d :: (ds ++ rest))).map (fun n => (n : Int))) = _
      rw [if_neg (digit_ne_minus d hd), if_neg (digit_ne_plus d hd)]
      rw [show jsParseIntDigits (d :: (ds ++ rest)) =
        some (digitsValue 10 (d :: ds)) from
        jsParseIntDigits_digits d ds rest hds hrest hhex]
      rfl
    unfold safeParseInt
    show (match jsParseInt (String.mk ((d :: ds) ++ rest)) with
      | none => 0
      | some n => n) = (digitsValue 10 (d :: ds) : Int)
    rw [hjs]

/-- Witness for C9: "45xy" parses to 45, and the empty cell (NaN) falls
back to 0. -/
theorem claim_C9_witness :
    safeParseInt (JSValue.vstr (String.mk (['4', '5'] ++ ['x', 'y']))) =
      (digitsValue 10 ['4', '5'] : Int) ∧
    safeParseInt (JSValue.vstr "") = 0 :=
  ⟨claim_C9_safeParseInt.2.1 '4' ['5'] ['x', 'y']
     (by decide)
     (by
       intro c hc
       rw [show (['x', 'y'] : List Char).head? = some 'x' from rfl] at hc
       injection hc with hc
       rw [← hc]
       decide)
     (by decide),
   (claim_C9_safeParseInt.1 (JSValue.vstr "")).mpr (Or.inl (by decide))⟩

end Covid
